import Mathlib

/-!
# AudioHandler (Nuke AudioPlayer): a shallow embedding

The development embeds `src_WIN/audioHandler.cpp` (the Linux variant has the
same bodies for every function modelled here, except that its constructor
initialises the engine eagerly and its `playAtFrame` has no second null check).

Conventions of the embedding:

* `float`/`double` values are exact rationals (`ℚ`): rounding of IEEE
  arithmetic is not modelled.
* Owning raw pointers (`_engine`, `_sound`, `_decoder`) are `Bool`s: `true`
  means non-null. `waveformDataL/R` are `Option (List ℚ)`: `none` is `nullptr`.
* Atomics are plain fields; the mutex is not modelled (sequential semantics).
* Every call into miniaudio is recorded as a `Cmd`; an operation returns the
  commands it issued, in order, next to the new state.
* What miniaudio answers (engine creation, opening a file, decoding it) is a
  parameter, `Backend`; the engine clock is an argument of `playAtFrame`.
-/

/-- Calls into the miniaudio backend, in the order the controller issues them. -/
inductive Cmd where
  | ma_engine_init
  | ma_sound_stop
  | ma_sound_uninit
  | ma_sound_init_from_file (fileName : String)
  | ma_sound_set_stop_time_in_pcm_frames (t : Nat)
  | ma_sound_seek_to_pcm_frame (p : Nat)
  | ma_engine_get_time_in_pcm_frames
  | ma_sound_start
  | ma_decoder_uninit
  | ma_decoder_init_file (fileName : String) (sampleRate : Nat)
  | ma_decoder_get_length_in_pcm_frames
  | ma_decoder_seek_to_pcm_frame (p : Nat)
  | ma_decoder_read_pcm_frames (frameCount : Nat)
  deriving DecidableEq, Repr

/-- What an initialised `ma_decoder` reports for a file. -/
structure DecodedFile where
  outputSampleRate : Nat
  outputChannels : Nat
  lengthInPcmFrames : Nat
  /-- The interleaved samples `ma_decoder_read_pcm_frames` delivers from frame 0. -/
  pcm : List ℚ

/-- Answers of the miniaudio backend. -/
structure Backend where
  /-- Result of `ma_engine_init`: `none` on failure, else the negotiated
  sample rate (`ma_engine_get_sample_rate`). -/
  engineInit : Option Nat
  /-- Whether `ma_sound_init_from_file` succeeds on a path. -/
  soundInitFromFile : String → Bool
  /-- Result of `ma_decoder_init_file` on a path with the requested output
  sample rate (format f32 and 2 channels are fixed in the source). -/
  decoderInitFile : String → Nat → Option DecodedFile

/-- The controller's fields (`audioHandler.h`). -/
structure AudioHandler where
  engine : Bool
  sound : Bool
  decoder : Bool
  initialized : Bool
  fileLoaded : Bool
  lastPlayedFrame : Int
  currentFile : String
  sampleRate : Nat
  channels : Nat
  totalPcmFrames : Nat
  fps : ℚ
  waveformDataL : Option (List ℚ)
  waveformDataR : Option (List ℚ)
  waveformWidth : Int
  audioData : List ℚ

/-- Conversion of a floating value to a signed integer: truncation toward zero. -/
def truncate (q : ℚ) : Int :=
  if 0 ≤ q then ⌊q⌋ else ⌈q⌉

/-- The value `(ma_uint64)x` of a floating `x`: truncation toward zero, taken
modulo `2^64` (outside `[0, 2^64)` the C++ conversion is undefined; the model
takes the two's-complement wrap). -/
def toUInt64 (q : ℚ) : Nat :=
  (truncate q % (2 ^ 64 : Int)).toNat

/-- The constructor of the Windows variant: nothing is initialised. -/
def AudioHandler.new : AudioHandler :=
  { engine := false, sound := false, decoder := false, initialized := false,
    fileLoaded := false, lastPlayedFrame := -9999, currentFile := "",
    sampleRate := 48000, channels := 2, totalPcmFrames := 0, fps := 25,
    waveformDataL := none, waveformDataR := none, waveformWidth := 0,
    audioData := [] }

/-- `AudioHandler::initEngine`. -/
def AudioHandler.initEngine (s : AudioHandler) (B : Backend) :
    Bool × AudioHandler × List Cmd :=
  if s.initialized then (true, s, [])
  else
    match B.engineInit with
    | none => (false, { s with engine := false }, [Cmd.ma_engine_init])
    | some rate =>
      (true, { s with engine := true, sampleRate := rate, initialized := true },
        [Cmd.ma_engine_init])

/-- The constructor of the Linux variant: it calls `initEngine()`. -/
def AudioHandler.newEager (B : Backend) : AudioHandler :=
  (AudioHandler.new.initEngine B).2.1

/-- The payload after `_audioData.resize(n)` on the cleared vector (all zeros)
followed by a read that overwrites a prefix with what the decoder delivers. -/
def fillPayload (n : Nat) (pcm : List ℚ) : List ℚ :=
  pcm.take n ++ List.replicate (n - (pcm.take n).length) 0

/-- `AudioHandler::loadFile`. -/
def AudioHandler.loadFile (s : AudioHandler) (B : Backend) (fileName : String) (fps : ℚ) :
    Bool × AudioHandler × List Cmd :=
  let s1 : AudioHandler := { s with fps := max 1 fps }
  let r := if s1.initialized then (true, s1, []) else s1.initEngine B
  if r.1 = false then (false, r.2.1, r.2.2)
  else
    let s2 := r.2.1
    let c1 := if s2.sound then [Cmd.ma_sound_stop, Cmd.ma_sound_uninit] else []
    let c2 := if s2.decoder then [Cmd.ma_decoder_uninit] else []
    let s3 : AudioHandler :=
      { s2 with sound := false, decoder := false, audioData := [],
                fileLoaded := false, lastPlayedFrame := -9999 }
    let c3 := r.2.2 ++ c1 ++ c2 ++ [Cmd.ma_sound_init_from_file fileName]
    if B.soundInitFromFile fileName = false then (false, s3, c3)
    else
      let c4 := c3 ++ [Cmd.ma_decoder_init_file fileName s3.sampleRate]
      match B.decoderInitFile fileName s3.sampleRate with
      | none =>
        (true, { s3 with sound := true, decoder := true, currentFile := fileName,
                         fileLoaded := true }, c4)
      | some d =>
        let total := d.lengthInPcmFrames
        let readIt : Bool := decide (0 < total ∧ total < 30000000)
        (true,
          { s3 with sound := true, decoder := true, currentFile := fileName,
                    fileLoaded := true,
                    sampleRate := d.outputSampleRate,
                    channels := d.outputChannels,
                    totalPcmFrames := total,
                    audioData :=
                      if readIt then fillPayload (total * d.outputChannels) d.pcm else [] },
          c4 ++ [Cmd.ma_decoder_get_length_in_pcm_frames] ++
            (if readIt then
              [Cmd.ma_decoder_seek_to_pcm_frame 0, Cmd.ma_decoder_read_pcm_frames total]
             else []))

/-- `AudioHandler::releaseFile`. -/
def AudioHandler.releaseFile (s : AudioHandler) : AudioHandler × List Cmd :=
  ({ s with sound := false, fileLoaded := false, lastPlayedFrame := -9999 },
    if s.sound then [Cmd.ma_sound_stop, Cmd.ma_sound_uninit] else [])

/-- The local `pcmStart` of `playAtFrame`:
`(ma_uint64)(frame * (1.0 / _fps) * _sampleRate)`. -/
def AudioHandler.pcmStart (s : AudioHandler) (frame : Int) : Nat :=
  let secondsPerFrame : ℚ := 1 / s.fps
  let startSeconds : ℚ := (frame : ℚ) * secondsPerFrame
  toUInt64 (startSeconds * (s.sampleRate : ℚ))

/-- The local `samplesPerVideoFrame` of `playAtFrame`:
`(ma_uint64)(_sampleRate / _fps)`. -/
def AudioHandler.samplesPerVideoFrame (s : AudioHandler) : Nat :=
  toUInt64 ((s.sampleRate : ℚ) / s.fps)

/-- `AudioHandler::playAtFrame`; `engineTime` is what
`ma_engine_get_time_in_pcm_frames` answers. -/
def AudioHandler.playAtFrame (s : AudioHandler) (frame : Int) (engineTime : Nat) :
    AudioHandler × List Cmd :=
  if s.fileLoaded = false ∨ s.sound = false ∨ s.engine = false then (s, [])
  else if frame = s.lastPlayedFrame then (s, [])
  else if s.sound = false ∨ s.engine = false then (s, [])
  else
    let pcmStart := s.pcmStart frame
    let samplesPerVideoFrame := s.samplesPerVideoFrame
    if 0 < s.totalPcmFrames ∧ s.totalPcmFrames ≤ pcmStart then
      ({ s with lastPlayedFrame := frame }, [Cmd.ma_sound_stop])
    else
      ({ s with lastPlayedFrame := frame },
        [Cmd.ma_sound_stop,
         Cmd.ma_sound_set_stop_time_in_pcm_frames (2 ^ 64 - 1),
         Cmd.ma_sound_seek_to_pcm_frame pcmStart,
         Cmd.ma_engine_get_time_in_pcm_frames,
         Cmd.ma_sound_set_stop_time_in_pcm_frames
           ((engineTime + samplesPerVideoFrame) % 2 ^ 64),
         Cmd.ma_sound_start])

/-- `AudioHandler::stop`. -/
def AudioHandler.stop (s : AudioHandler) : AudioHandler × List Cmd :=
  ({ s with lastPlayedFrame := -9999 }, if s.sound then [Cmd.ma_sound_stop] else [])

/-- `AudioHandler::setFps`. -/
def AudioHandler.setFps (s : AudioHandler) (fps : ℚ) : AudioHandler :=
  { s with fps := max 1 fps }

/-- `AudioHandler::getFps`. -/
def AudioHandler.getFps (s : AudioHandler) : ℚ := s.fps

/-- `AudioHandler::setFileLoaded`. -/
def AudioHandler.setFileLoaded (s : AudioHandler) (loaded : Bool) : AudioHandler :=
  { s with fileLoaded := loaded }

/-- `AudioHandler::getWaveformWidth`. -/
def AudioHandler.getWaveformWidth (s : AudioHandler) : Int := s.waveformWidth

/-- `AudioHandler::getFileLengthInFrames`; the `(int)` conversion is the
truncation, its range is not modelled. -/
def AudioHandler.getFileLengthInFrames (s : AudioHandler) : Int :=
  if s.fileLoaded = false ∨ s.sampleRate = 0 ∨ s.fps ≤ 0 then 0
  else
    let durationSeconds : ℚ := (s.totalPcmFrames : ℚ) / (s.sampleRate : ℚ)
    truncate (durationSeconds * s.fps)

/-- The inner loop of `generateWaveform`, `for (i = start; i < end; i++)`, as a
recursion on the number of iterations left; `acc` is `(maxL, maxR)`. A read
outside the payload yields `none`. -/
def peakLoop (audioData : List ℚ) (channels : Nat) : Nat → Nat → ℚ × ℚ → Option (ℚ × ℚ)
  | _, 0, acc => some acc
  | i, n + 1, acc =>
    let idx := i * channels
    match audioData[idx]? with
    | none => none
    | some l =>
      if 2 ≤ channels then
        match audioData[idx + 1]? with
        | none => none
        | some r => peakLoop audioData channels (i + 1) n (max acc.1 |l|, max acc.2 |r|)
      else peakLoop audioData channels (i + 1) n (max acc.1 |l|, acc.2)

/-- The outer loop of `generateWaveform`, `for (x = 0; x < pixelWidth; x++)`, as
a recursion on the number of pixels left; it yields the entries written to
`waveformDataL` and `waveformDataR` from index `x` on. -/
def pixelLoop (audioData : List ℚ) (channels totalSamples samplesPerPixel : Nat) :
    Nat → Nat → Option (List ℚ × List ℚ)
  | _, 0 => some ([], [])
  | x, n + 1 =>
    let start := x * samplesPerPixel
    let endIdx := min (start + samplesPerPixel) totalSamples
    match peakLoop audioData channels start (endIdx - start) (0, 0) with
    | none => none
    | some m =>
      match pixelLoop audioData channels totalSamples samplesPerPixel (x + 1) n with
      | none => none
      | some rest =>
        some (m.1 :: rest.1, (if 2 ≤ channels then m.2 else m.1) :: rest.2)

/-- The local `totalSamples` of `generateWaveform`:
`_audioData.size() / _channels`. -/
def AudioHandler.totalSamples (s : AudioHandler) : Nat :=
  s.audioData.length / s.channels

/-- The local `samplesPerPixel` of `generateWaveform`:
`std::max(size_t(1), totalSamples / pixelWidth)`. -/
def AudioHandler.samplesPerPixel (s : AudioHandler) (pixelWidth : Int) : Nat :=
  max 1 (s.totalSamples / pixelWidth.toNat)

/-- `AudioHandler::generateWaveform`. The result is `none` where the C++ has no
defined behaviour: an integer division by `_channels == 0` or a read outside
`_audioData`. The `size_t` products and sums of the loop stay below
`max(pixelWidth, totalSamples) + samplesPerPixel`, so they are not reduced
modulo the word size. -/
def AudioHandler.generateWaveform (s : AudioHandler) (pixelWidth : Int) : Option AudioHandler :=
  let s0 : AudioHandler :=
    { s with waveformDataL := none, waveformDataR := none, waveformWidth := 0 }
  if s0.fileLoaded = false ∨ s0.audioData.isEmpty = true ∨ pixelWidth ≤ 0 then some s0
  else if s0.channels = 0 then none
  else
    let totalSamples := s0.totalSamples
    let samplesPerPixel := s0.samplesPerPixel pixelWidth
    match pixelLoop s0.audioData s0.channels totalSamples samplesPerPixel 0 pixelWidth.toNat with
    | none => none
    | some w =>
      some { s0 with waveformWidth := pixelWidth,
                     waveformDataL := some w.1, waveformDataR := some w.2 }

/-- States the controller can be in: either constructor, followed by any calls
of `loadFile`, `releaseFile`, `playAtFrame`, `stop`, `setFps` and
`generateWaveform` (with any backend answers and any engine clock). -/
inductive Reachable : AudioHandler → Prop where
  | new : Reachable AudioHandler.new
  | newEager (B : Backend) : Reachable (AudioHandler.newEager B)
  | loadFile {s : AudioHandler} (B : Backend) (fileName : String) (fps : ℚ) :
      Reachable s → Reachable (s.loadFile B fileName fps).2.1
  | releaseFile {s : AudioHandler} : Reachable s → Reachable s.releaseFile.1
  | playAtFrame {s : AudioHandler} (frame : Int) (engineTime : Nat) :
      Reachable s → Reachable (s.playAtFrame frame engineTime).1
  | stop {s : AudioHandler} : Reachable s → Reachable s.stop.1
  | setFps {s : AudioHandler} (fps : ℚ) : Reachable s → Reachable (s.setFps fps)
  | generateWaveform {s s' : AudioHandler} (pixelWidth : Int) :
      Reachable s → s.generateWaveform pixelWidth = some s' → Reachable s'

/-- The PCM offset as the specification words it: `round(startSeconds * sampleRate)`
with `startSeconds = frame / fps`, rounding to the nearest integer. -/
def specPcmStart (frame : Int) (fps : ℚ) (sampleRate : Nat) : Int :=
  round (((frame : ℚ) / fps) * (sampleRate : ℚ))

/-- A backend whose engine runs at 48 kHz, that opens every file and decodes
each as `d`. -/
def Backend.always (d : DecodedFile) : Backend :=
  { engineInit := some 48000, soundInitFromFile := fun _ => true,
    decoderInitFile := fun _ _ => some d }

/-- A controller state with a loaded asset, given by its format and length. -/
def AudioHandler.loadedWith (sampleRate channels totalPcmFrames : Nat) (fps : ℚ)
    (audioData : List ℚ) : AudioHandler :=
  { AudioHandler.new with
    engine := true, sound := true, decoder := true, initialized := true,
    fileLoaded := true, sampleRate := sampleRate, channels := channels,
    totalPcmFrames := totalPcmFrames, fps := fps, audioData := audioData }

/-- A ten-second 48 kHz asset. -/
def tenSeconds : DecodedFile :=
  { outputSampleRate := 48000, outputChannels := 2, lengthInPcmFrames := 480000, pcm := [] }

/-- The state after constructing the controller and loading `tenSeconds` at 25 fps. -/
def loadedTenSeconds : AudioHandler :=
  (AudioHandler.new.loadFile (Backend.always tenSeconds) "clip.wav" 25).2.1

/-- A backend that opens every file for playback but cannot decode any. -/
def Backend.noDecoder : Backend :=
  { engineInit := some 48000, soundInitFromFile := fun _ => true,
    decoderInitFile := fun _ _ => none }

/-- The state after constructing the controller and loading a file whose decode
handle fails to open. -/
def loadedNoDecoder : AudioHandler :=
  (AudioHandler.new.loadFile Backend.noDecoder "clip.wav" 25).2.1

/-- Whether a backend call is a seek of the playable handle. -/
def Cmd.isSeek : Cmd → Bool
  | Cmd.ma_sound_seek_to_pcm_frame _ => true
  | _ => false

/-- Whether a backend call starts the playable handle. -/
def Cmd.isStart : Cmd → Bool
  | Cmd.ma_sound_start => true
  | _ => false

/-- A backend that opens every file for playback and can decode only
`known.wav`, as `tenSeconds`. -/
def Backend.decodesOnlyKnown : Backend :=
  { engineInit := some 48000, soundInitFromFile := fun _ => true,
    decoderInitFile := fun p _ => if p = "known.wav" then some tenSeconds else none }

/-- A backend that cannot open any file. -/
def Backend.opensNothing : Backend :=
  { engineInit := some 48000, soundInitFromFile := fun _ => false,
    decoderInitFile := fun _ _ => none }

/-- The result of loading `known.wav` (decodable, ten seconds) and then
`other.ogg`, whose playable handle opens but whose decode handle does not. -/
def reloadedWithoutDecoder : Bool × AudioHandler × List Cmd :=
  (AudioHandler.new.loadFile Backend.decodesOnlyKnown "known.wav" 25).2.1.loadFile
    Backend.decodesOnlyKnown "other.ogg" 25

/-- From the specification's wording: `v` is the peak of channel `c` over the
sample frames `lo <= i < hi` of the interleaved payload, that is the maximum of
`|sample|` over the window (every sample of the window lies inside the payload
and is at most `v`, and `v` is one of them), and 0 when the window is empty. -/
def IsPeak (audioData : List ℚ) (channels c lo hi : Nat) (v : ℚ) : Prop :=
  0 ≤ v ∧
  (∀ i, lo ≤ i → i < hi →
    i * channels + c < audioData.length ∧ |audioData.getD (i * channels + c) 0| ≤ v) ∧
  (hi ≤ lo → v = 0) ∧
  (lo < hi → ∃ i, lo ≤ i ∧ i < hi ∧ v = |audioData.getD (i * channels + c) 0|)

/-- A loaded stereo asset of 10,000 sample frames (20,000 interleaved samples). -/
def stereoTenThousand : AudioHandler :=
  AudioHandler.loadedWith 48000 2 10000 25 (List.replicate 20000 (1 / 2))

/-- A loaded stereo asset of four sample frames. -/
def stereoFour : AudioHandler :=
  AudioHandler.loadedWith 48000 2 4 25 [1, -2, 3, -4, 5, -6, 7, -8]

/-- The `_sampleRate` that `loadFile` hands to `ma_decoder_config_init`: the
field as it stands once the engine is initialised (`initEngine` overwrites it
with the engine's rate when it creates the engine). -/
def AudioHandler.requestedRate (s : AudioHandler) (B : Backend) : Nat :=
  if s.initialized then s.sampleRate
  else
    match B.engineInit with
    | some rate => rate
    | none => s.sampleRate

/-- A backend whose decoder never resamples: whatever rate is asked for, it
reports the file's own 44.1 kHz and its 441000 frames. -/
def Backend.nativeRate : Backend :=
  { engineInit := some 48000, soundInitFromFile := fun _ => true,
    decoderInitFile := fun _ _ =>
      some { outputSampleRate := 44100, outputChannels := 2,
             lengthInPcmFrames := 441000, pcm := [] } }

/-- A backend whose decoder resamples a ten-second file to the rate asked for
(so its length is ten times that rate) but reports the file's own 44.1 kHz. -/
def Backend.misreportsRate : Backend :=
  { engineInit := some 48000, soundInitFromFile := fun _ => true,
    decoderInitFile := fun _ rate =>
      some { outputSampleRate := 44100, outputChannels := 2,
             lengthInPcmFrames := 10 * rate, pcm := [] } }

/-- A short stereo file of four sample frames. -/
def smallClip : DecodedFile :=
  { outputSampleRate := 48000, outputChannels := 2, lengthInPcmFrames := 4,
    pcm := [1, -2, 3, -4, 5, -6, 7, -8] }

/-- A backend that decodes `big.wav` as an asset of 30,000,000 PCM frames (at
the payload ceiling) and every other file as `smallClip`. -/
def Backend.smallAndBig : Backend :=
  { engineInit := some 48000, soundInitFromFile := fun _ => true,
    decoderInitFile := fun p _ =>
      if p = "big.wav" then
        some { outputSampleRate := 48000, outputChannels := 2,
               lengthInPcmFrames := 30000000, pcm := [] }
      else some smallClip }

/-- The state after constructing the controller and loading `small.wav`. -/
def loadedSmall : AudioHandler :=
  (AudioHandler.new.loadFile Backend.smallAndBig "small.wav" 25).2.1

/-- The waveform cache is empty: width 0 and both sequences absent. -/
def AudioHandler.waveformEmpty (s : AudioHandler) : Prop :=
  s.waveformWidth = 0 ∧ s.waveformDataL = none ∧ s.waveformDataR = none

/-- The waveform cache holds a waveform: a positive width and that many entries
in each sequence. -/
def AudioHandler.waveformFilled (s : AudioHandler) : Prop :=
  0 < s.waveformWidth ∧
  ∃ l r, s.waveformDataL = some l ∧ s.waveformDataR = some r ∧
    (l.length : Int) = s.waveformWidth ∧ (r.length : Int) = s.waveformWidth

/-- The knobs and the frame cursor of the plugin node (`audioplayer.cpp`). -/
structure AudioPlayer where
  fileKnob : String
  enabled : Bool
  showWaveform : Bool
  offset : Int
  fps : ℚ
  waveformHeight : ℚ
  lastFrame : Int

/-- The constructor of the plugin node. -/
def AudioPlayer.new : AudioPlayer :=
  { fileKnob := "", enabled := true, showWaveform := true, offset := 0, fps := 25,
    waveformHeight := 1, lastFrame := -9999 }

/-- The block "Load file if needed" of `AudioPlayer::_validate`, on the shared
controller `h`; `width` is `input0().format().width()`. -/
def AudioPlayer.loadIfNeeded (p : AudioPlayer) (h : AudioHandler) (B : Backend) (width : Int) :
    Option (AudioHandler × List Cmd) :=
  if h.fileLoaded = false ∧ p.fileKnob ≠ "" then
    let r := h.loadFile B p.fileKnob p.fps
    if r.1 = true then
      if 0 < width then
        match r.2.1.generateWaveform width with
        | none => none
        | some h' => some (h', r.2.2)
      else some (r.2.1, r.2.2)
    else some (r.2.1, r.2.2)
  else some (h, [])

/-- The block "Play audio at current frame (only if frame changed)" of
`AudioPlayer::_validate`. -/
def AudioPlayer.playIfChanged (p : AudioPlayer) (h : AudioHandler) (currentFrame : Int)
    (engineTime : Nat) : AudioPlayer × AudioHandler × List Cmd :=
  if h.fileLoaded = true ∧ currentFrame ≠ p.lastFrame then
    let audioFrame := currentFrame - p.offset
    let fileLen := h.getFileLengthInFrames
    let r := if 0 ≤ audioFrame ∧ audioFrame < fileLen then h.playAtFrame audioFrame engineTime
             else (h, [])
    ({ p with lastFrame := currentFrame }, r.1, r.2)
  else (p, h, [])

/-- The audio part of `AudioPlayer::_validate` at timeline frame `currentFrame`
(input validation and the host's cache clearing are left out). -/
def AudioPlayer.validate (p : AudioPlayer) (h : AudioHandler) (B : Backend) (currentFrame : Int)
    (width : Int) (engineTime : Nat) : Option (AudioPlayer × AudioHandler × List Cmd) :=
  if p.enabled = false then some (p, h, [])
  else
    match p.loadIfNeeded h B width with
    | none => none
    | some l =>
      let r := p.playIfChanged l.1 currentFrame engineTime
      some (r.1, r.2.1, l.2 ++ r.2.2)

/-- A plugin node with `clip.wav` as its audio file. -/
def scrubPlayer : AudioPlayer :=
  { AudioPlayer.new with fileKnob := "clip.wav" }

/-- The controller after the ten-second asset was loaded and frame 5 played. -/
def afterFrame5 : AudioHandler :=
  { loadedTenSeconds with lastPlayedFrame := 5 }

/-! ## Conversions -/

theorem truncate_of_nonneg {q : ℚ} (h : 0 ≤ q) : truncate q = ⌊q⌋ := by
  simp [truncate, h]

theorem truncate_nonneg {q : ℚ} (h : 0 ≤ q) : 0 ≤ truncate q := by
  rw [truncate_of_nonneg h]; exact Int.floor_nonneg.mpr h

theorem toUInt64_of_nonneg {q : ℚ} (h : 0 ≤ q) (hlt : q < 2 ^ 64) :
    (toUInt64 q : Int) = ⌊q⌋ := by
  have h0 : (0 : Int) ≤ ⌊q⌋ := Int.floor_nonneg.mpr h
  have h1 : ⌊q⌋ < (2 ^ 64 : Int) := by
    have : ((⌊q⌋ : Int) : ℚ) < ((2 ^ 64 : Int) : ℚ) := by
      push_cast
      exact lt_of_le_of_lt (Int.floor_le q) hlt
    exact_mod_cast this
  unfold toUInt64
  rw [truncate_of_nonneg h, Int.emod_eq_of_lt h0 h1, Int.toNat_of_nonneg h0]

/-! ## C1 -/

/-- C1: `getFileLengthInFrames()` is 0 when no asset is loaded or the sample
rate is 0; otherwise (the controller's fps being positive, as it is in every
reachable state) it is `floor(totalPcmFrames / sampleRate * fps)`; and after
`setFps(g)` without a reload it is that floor for `max(1, g)`. -/
theorem getFileLengthInFrames_spec (s : AudioHandler) (hfps : 0 < s.fps) :
    (s.fileLoaded = false ∨ s.sampleRate = 0 → s.getFileLengthInFrames = 0) ∧
    (s.fileLoaded = true → s.sampleRate ≠ 0 →
      s.getFileLengthInFrames
        = ⌊(s.totalPcmFrames : ℚ) / (s.sampleRate : ℚ) * s.fps⌋) ∧
    (∀ g : ℚ, s.fileLoaded = true → s.sampleRate ≠ 0 →
      (s.setFps g).getFileLengthInFrames
        = ⌊(s.totalPcmFrames : ℚ) / (s.sampleRate : ℚ) * max 1 g⌋) := by
  refine ⟨?_, ?_, ?_⟩
  · intro h
    unfold AudioHandler.getFileLengthInFrames
    rcases h with h | h
    · simp [h]
    · simp [h]
  · intro hl hr
    have hnn : (0 : ℚ) ≤ (s.totalPcmFrames : ℚ) / (s.sampleRate : ℚ) * s.fps := by
      positivity
    unfold AudioHandler.getFileLengthInFrames
    simp only [hl, hr, not_le.mpr hfps, or_self, Bool.true_eq_false, if_false]
    exact truncate_of_nonneg hnn
  · intro g hl hr
    have hg : (0 : ℚ) < max 1 g := lt_of_lt_of_le one_pos (le_max_left 1 g)
    have hnn : (0 : ℚ) ≤ (s.totalPcmFrames : ℚ) / (s.sampleRate : ℚ) * max 1 g := by
      positivity
    unfold AudioHandler.getFileLengthInFrames AudioHandler.setFps
    simp only [hl, hr, not_le.mpr hg, or_self, Bool.true_eq_false, if_false]
    exact truncate_of_nonneg hnn

theorem loadedTenSeconds_fields :
    loadedTenSeconds.fileLoaded = true ∧ loadedTenSeconds.sound = true ∧
    loadedTenSeconds.engine = true ∧ loadedTenSeconds.sampleRate = 48000 ∧
    loadedTenSeconds.totalPcmFrames = 480000 ∧ loadedTenSeconds.fps = 25 ∧
    loadedTenSeconds.lastPlayedFrame = -9999 := by
  simp [loadedTenSeconds, AudioHandler.loadFile, AudioHandler.initEngine, AudioHandler.new,
    Backend.always, tenSeconds]

/-- Witness for C1: 480000 PCM frames at 48000 Hz and 25 fps give 250 frames,
and after `setFps(30)` without a reload 300. -/
theorem getFileLengthInFrames_spec_witness :
    loadedTenSeconds.getFileLengthInFrames = 250 ∧
    (loadedTenSeconds.setFps 30).getFileLengthInFrames = 300 := by
  obtain ⟨hl, _, _, hr, ht, hf, _⟩ := loadedTenSeconds_fields
  have h := getFileLengthInFrames_spec loadedTenSeconds (by rw [hf]; norm_num)
  refine ⟨?_, ?_⟩
  · rw [h.2.1 hl (by rw [hr]; decide), ht, hr, hf]
    norm_num
  · rw [h.2.2 30 hl (by rw [hr]; decide), ht, hr]
    norm_num

/-! ## playAtFrame -/

theorem pcmStart_eq_floor (s : AudioHandler) (f : Int)
    (h0 : 0 ≤ (f : ℚ) / s.fps * (s.sampleRate : ℚ))
    (hlt : (f : ℚ) / s.fps * (s.sampleRate : ℚ) < 2 ^ 64) :
    (s.pcmStart f : Int) = ⌊(f : ℚ) / s.fps * (s.sampleRate : ℚ)⌋ := by
  have e : (f : ℚ) * (1 / s.fps) * (s.sampleRate : ℚ)
      = (f : ℚ) / s.fps * (s.sampleRate : ℚ) := by
    rw [mul_one_div]
  unfold AudioHandler.pcmStart
  simp only [e]
  exact toUInt64_of_nonneg h0 hlt

theorem samplesPerVideoFrame_eq_floor (s : AudioHandler) (hfps : 0 < s.fps)
    (hlt : (s.sampleRate : ℚ) / s.fps < 2 ^ 64) :
    (s.samplesPerVideoFrame : Int) = ⌊(s.sampleRate : ℚ) / s.fps⌋ := by
  have h0 : (0 : ℚ) ≤ (s.sampleRate : ℚ) / s.fps := by positivity
  unfold AudioHandler.samplesPerVideoFrame
  exact toUInt64_of_nonneg h0 hlt

/-- With the ranges of the C++ types (`int` frame, `ma_uint32` sample rate) and
fps at least 1, the offset of a non-negative frame is within `ma_uint64`. -/
theorem pcm_offset_in_range (s : AudioHandler) (f : Int) (h0 : 0 ≤ f) (hf : f < 2 ^ 31)
    (hr : s.sampleRate < 2 ^ 32) (hfps : 1 ≤ s.fps) :
    (f : ℚ) / s.fps * (s.sampleRate : ℚ) < 2 ^ 64 := by
  have hpos : (0 : ℚ) < s.fps := lt_of_lt_of_le one_pos hfps
  have hf0 : (0 : ℚ) ≤ (f : ℚ) := by exact_mod_cast h0
  have hf1 : (f : ℚ) ≤ 2 ^ 31 := by exact_mod_cast hf.le
  have hr1 : (s.sampleRate : ℚ) ≤ 2 ^ 32 := by exact_mod_cast hr.le
  have hr0 : (0 : ℚ) ≤ (s.sampleRate : ℚ) := Nat.cast_nonneg _
  have h1 : (f : ℚ) / s.fps ≤ (f : ℚ) := div_le_self hf0 hfps
  calc (f : ℚ) / s.fps * (s.sampleRate : ℚ)
      ≤ (f : ℚ) * (s.sampleRate : ℚ) := mul_le_mul_of_nonneg_right h1 hr0
    _ ≤ 2 ^ 31 * 2 ^ 32 := mul_le_mul hf1 hr1 hr0 (by norm_num)
    _ < 2 ^ 64 := by norm_num

/-- C2 (as stated, refuted): in the loaded state whose decode handle failed
(`totalPcmFrames = 0`), frame 260 satisfies `f / fps * sampleRate >= totalPcmFrames`,
yet `playAtFrame(260)` seeks and starts the playable handle. -/
theorem playAtFrame_unknown_length_seeks :
    (loadedNoDecoder.fileLoaded = true ∧ loadedNoDecoder.sound = true ∧
      loadedNoDecoder.engine = true) ∧
    (260 : Int) ≠ loadedNoDecoder.lastPlayedFrame ∧
    (loadedNoDecoder.totalPcmFrames : ℚ)
      ≤ ((260 : Int) : ℚ) / loadedNoDecoder.fps * (loadedNoDecoder.sampleRate : ℚ) ∧
    (loadedNoDecoder.playAtFrame 260 0).2
      = [Cmd.ma_sound_stop,
         Cmd.ma_sound_set_stop_time_in_pcm_frames (2 ^ 64 - 1),
         Cmd.ma_sound_seek_to_pcm_frame 499200,
         Cmd.ma_engine_get_time_in_pcm_frames,
         Cmd.ma_sound_set_stop_time_in_pcm_frames 1920,
         Cmd.ma_sound_start] := by
  have hp : loadedNoDecoder.pcmStart 260 = 499200 := by
    have h := pcmStart_eq_floor loadedNoDecoder 260
      (by norm_num [loadedNoDecoder, AudioHandler.loadFile, AudioHandler.initEngine,
            AudioHandler.new, Backend.noDecoder])
      (by norm_num [loadedNoDecoder, AudioHandler.loadFile, AudioHandler.initEngine,
            AudioHandler.new, Backend.noDecoder])
    have e : ⌊((260 : Int) : ℚ) / loadedNoDecoder.fps * (loadedNoDecoder.sampleRate : ℚ)⌋
        = 499200 := by
      norm_num [loadedNoDecoder, AudioHandler.loadFile, AudioHandler.initEngine,
            AudioHandler.new, Backend.noDecoder]
    rw [e] at h
    exact_mod_cast h
  have hv : loadedNoDecoder.samplesPerVideoFrame = 1920 := by
    have h := samplesPerVideoFrame_eq_floor loadedNoDecoder
      (by norm_num [loadedNoDecoder, AudioHandler.loadFile, AudioHandler.initEngine,
            AudioHandler.new, Backend.noDecoder])
      (by norm_num [loadedNoDecoder, AudioHandler.loadFile, AudioHandler.initEngine,
            AudioHandler.new, Backend.noDecoder])
    have e : ⌊(loadedNoDecoder.sampleRate : ℚ) / loadedNoDecoder.fps⌋ = 1920 := by
      norm_num [loadedNoDecoder, AudioHandler.loadFile, AudioHandler.initEngine,
            AudioHandler.new, Backend.noDecoder]
    rw [e] at h
    exact_mod_cast h
  refine ⟨?_, ?_, ?_, ?_⟩
  · simp [loadedNoDecoder, AudioHandler.loadFile, AudioHandler.initEngine,
      AudioHandler.new, Backend.noDecoder]
  · simp [loadedNoDecoder, AudioHandler.loadFile, AudioHandler.initEngine,
      AudioHandler.new, Backend.noDecoder]
  · norm_num [loadedNoDecoder, AudioHandler.loadFile, AudioHandler.initEngine,
      AudioHandler.new, Backend.noDecoder]
  · unfold AudioHandler.playAtFrame
    rw [hp, hv]
    simp [loadedNoDecoder, AudioHandler.loadFile, AudioHandler.initEngine,
      AudioHandler.new, Backend.noDecoder]

/-- C2 (amended): in a loaded state with a playable handle whose asset has a
known length (`totalPcmFrames > 0`), for a frame `f` other than
`lastPlayedFrame` with `f / fps * sampleRate >= totalPcmFrames` (the offset
being within `ma_uint64`), `playAtFrame(f)` issues the single command
`ma_sound_stop` (no seek, no start) and records `lastPlayedFrame = f`. -/
theorem playAtFrame_beyond_end (s : AudioHandler) (f : Int) (t : Nat)
    (hl : s.fileLoaded = true) (hs : s.sound = true) (he : s.engine = true)
    (hne : f ≠ s.lastPlayedFrame) (htot : 0 < s.totalPcmFrames)
    (hge : (s.totalPcmFrames : ℚ) ≤ (f : ℚ) / s.fps * (s.sampleRate : ℚ))
    (hrange : (f : ℚ) / s.fps * (s.sampleRate : ℚ) < 2 ^ 64) :
    s.playAtFrame f t = ({ s with lastPlayedFrame := f }, [Cmd.ma_sound_stop]) := by
  have h0 : (0 : ℚ) ≤ (f : ℚ) / s.fps * (s.sampleRate : ℚ) :=
    le_trans (Nat.cast_nonneg _) hge
  have hp := pcmStart_eq_floor s f h0 hrange
  have hle : (s.totalPcmFrames : Int) ≤ (s.pcmStart f : Int) := by
    rw [hp]
    exact Int.le_floor.mpr (by exact_mod_cast hge)
  have hle' : s.totalPcmFrames ≤ s.pcmStart f := by exact_mod_cast hle
  unfold AudioHandler.playAtFrame
  simp [hl, hs, he, hne, htot, hle']

/-- Witness for C2: the ten-second 48 kHz asset at 25 fps, `playAtFrame(260)`. -/
theorem playAtFrame_beyond_end_witness :
    loadedTenSeconds.playAtFrame 260 0
      = ({ loadedTenSeconds with lastPlayedFrame := 260 }, [Cmd.ma_sound_stop]) := by
  obtain ⟨hl, hs, he, hr, ht, hf, hlast⟩ := loadedTenSeconds_fields
  exact playAtFrame_beyond_end loadedTenSeconds 260 0 hl hs he
    (by rw [hlast]; decide) (by rw [ht]; decide)
    (by rw [ht, hr, hf]; norm_num) (by rw [hr, hf]; norm_num)

/-- C3: for every state and frame, a second `playAtFrame(f)` right after the
first issues no backend command and leaves the state as the first call left
it; the two calls together issue at most one seek and at most one start. -/
theorem playAtFrame_twice (s : AudioHandler) (f : Int) (t t' : Nat) :
    (s.playAtFrame f t).1.playAtFrame f t' = ((s.playAtFrame f t).1, []) ∧
    ((s.playAtFrame f t).2 ++ ((s.playAtFrame f t).1.playAtFrame f t').2).countP Cmd.isSeek ≤ 1 ∧
    ((s.playAtFrame f t).2 ++ ((s.playAtFrame f t).1.playAtFrame f t').2).countP Cmd.isStart
      ≤ 1 := by
  have key : (s.playAtFrame f t).1.playAtFrame f t' = ((s.playAtFrame f t).1, []) ∧
      (s.playAtFrame f t).2.countP Cmd.isSeek ≤ 1 ∧
      (s.playAtFrame f t).2.countP Cmd.isStart ≤ 1 := by
    by_cases c1 : s.fileLoaded = false ∨ s.sound = false ∨ s.engine = false
    · have e : s.playAtFrame f t = (s, []) := by
        unfold AudioHandler.playAtFrame; rw [if_pos c1]
      have e' : s.playAtFrame f t' = (s, []) := by
        unfold AudioHandler.playAtFrame; rw [if_pos c1]
      rw [e]
      exact ⟨e', by simp, by simp⟩
    · by_cases c2 : f = s.lastPlayedFrame
      · have e : s.playAtFrame f t = (s, []) := by
          unfold AudioHandler.playAtFrame; rw [if_neg c1, if_pos c2]
        have e' : s.playAtFrame f t' = (s, []) := by
          unfold AudioHandler.playAtFrame; rw [if_neg c1, if_pos c2]
        rw [e]
        exact ⟨e', by simp, by simp⟩
      · have c3 : ¬ (s.sound = false ∨ s.engine = false) := fun h => c1 (Or.inr h)
        by_cases c4 : 0 < s.totalPcmFrames ∧ s.totalPcmFrames ≤ s.pcmStart f
        · have e : s.playAtFrame f t
              = ({ s with lastPlayedFrame := f }, [Cmd.ma_sound_stop]) := by
            unfold AudioHandler.playAtFrame
            rw [if_neg c1, if_neg c2, if_neg c3]
            simp only [c4, and_self, if_true]
          rw [e]
          refine ⟨?_, by simp [Cmd.isSeek], by simp [Cmd.isStart]⟩
          unfold AudioHandler.playAtFrame
          simp
        · have e : s.playAtFrame f t
              = ({ s with lastPlayedFrame := f },
                  [Cmd.ma_sound_stop,
                   Cmd.ma_sound_set_stop_time_in_pcm_frames (2 ^ 64 - 1),
                   Cmd.ma_sound_seek_to_pcm_frame (s.pcmStart f),
                   Cmd.ma_engine_get_time_in_pcm_frames,
                   Cmd.ma_sound_set_stop_time_in_pcm_frames
                     ((t + s.samplesPerVideoFrame) % 2 ^ 64),
                   Cmd.ma_sound_start]) := by
            unfold AudioHandler.playAtFrame
            rw [if_neg c1, if_neg c2, if_neg c3]
            simp only [c4, if_false]
          rw [e]
          refine ⟨?_, by simp [Cmd.isSeek], by simp [Cmd.isStart]⟩
          unfold AudioHandler.playAtFrame
          simp
  obtain ⟨k1, k2, k3⟩ := key
  refine ⟨k1, ?_, ?_⟩
  · rw [k1]; simpa using k2
  · rw [k1]; simpa using k3

/-- C4: in a loaded state with a playable handle, for a frame `f` other than
`lastPlayedFrame` whose PCM offset is before the end of the asset (or whose
asset has unknown length 0), `playAtFrame(f)` issues exactly: stop; clear the
stop time; seek to `pcmStart`; read the engine clock `t`; arm the stop at the
64-bit sum `t + samplesPerVideoFrame`; start; and records `lastPlayedFrame = f`.
With a positive fps `samplesPerVideoFrame` is `floor(sampleRate / fps)`, and
the 64-bit sum is the exact sum whenever that is below `2^64`. -/
theorem playAtFrame_in_bounds (s : AudioHandler) (f : Int) (t : Nat)
    (hl : s.fileLoaded = true) (hs : s.sound = true) (he : s.engine = true)
    (hne : f ≠ s.lastPlayedFrame)
    (hlt : s.totalPcmFrames = 0 ∨ s.pcmStart f < s.totalPcmFrames) :
    s.playAtFrame f t
      = ({ s with lastPlayedFrame := f },
          [Cmd.ma_sound_stop,
           Cmd.ma_sound_set_stop_time_in_pcm_frames (2 ^ 64 - 1),
           Cmd.ma_sound_seek_to_pcm_frame (s.pcmStart f),
           Cmd.ma_engine_get_time_in_pcm_frames,
           Cmd.ma_sound_set_stop_time_in_pcm_frames
             ((t + s.samplesPerVideoFrame) % 2 ^ 64),
           Cmd.ma_sound_start]) ∧
    (0 < s.fps → (s.sampleRate : ℚ) / s.fps < 2 ^ 64 →
      (s.samplesPerVideoFrame : Int) = ⌊(s.sampleRate : ℚ) / s.fps⌋) ∧
    (t + s.samplesPerVideoFrame < 2 ^ 64 →
      (t + s.samplesPerVideoFrame) % 2 ^ 64 = t + s.samplesPerVideoFrame) := by
  refine ⟨?_, fun hfps hr => samplesPerVideoFrame_eq_floor s hfps hr,
    fun h => Nat.mod_eq_of_lt h⟩
  have c4 : ¬ (0 < s.totalPcmFrames ∧ s.totalPcmFrames ≤ s.pcmStart f) := by
    rintro ⟨h1, h2⟩
    rcases hlt with h | h
    · omega
    · omega
  unfold AudioHandler.playAtFrame
  simp [hl, hs, he, hne, c4]

theorem loadedTenSeconds_pcmStart_zero : loadedTenSeconds.pcmStart 0 = 0 := by
  obtain ⟨_, _, _, hr, _, hf, _⟩ := loadedTenSeconds_fields
  have h := pcmStart_eq_floor loadedTenSeconds 0 (by rw [hr, hf]; norm_num)
    (by rw [hr, hf]; norm_num)
  rw [hr, hf] at h
  norm_num at h
  exact h

theorem loadedTenSeconds_samplesPerVideoFrame : loadedTenSeconds.samplesPerVideoFrame = 1920 := by
  obtain ⟨_, _, _, hr, _, hf, _⟩ := loadedTenSeconds_fields
  have h := samplesPerVideoFrame_eq_floor loadedTenSeconds (by rw [hf]; norm_num)
    (by rw [hr, hf]; norm_num)
  rw [hr, hf] at h
  have e : ⌊((48000 : Nat) : ℚ) / 25⌋ = 1920 := by norm_num
  rw [e] at h
  exact_mod_cast h

/-- Witness for C4: sample rate 48000, fps 25, engine clock 0: `playAtFrame(0)`
seeks to sample 0 and arms the stop at 1920. -/
theorem playAtFrame_in_bounds_witness :
    loadedTenSeconds.playAtFrame 0 0
      = ({ loadedTenSeconds with lastPlayedFrame := 0 },
          [Cmd.ma_sound_stop,
           Cmd.ma_sound_set_stop_time_in_pcm_frames (2 ^ 64 - 1),
           Cmd.ma_sound_seek_to_pcm_frame 0,
           Cmd.ma_engine_get_time_in_pcm_frames,
           Cmd.ma_sound_set_stop_time_in_pcm_frames 1920,
           Cmd.ma_sound_start]) := by
  obtain ⟨hl, hs, he, _, ht, _, hlast⟩ := loadedTenSeconds_fields
  have h := (playAtFrame_in_bounds loadedTenSeconds 0 0 hl hs he
    (by rw [hlast]; decide)
    (Or.inr (by rw [loadedTenSeconds_pcmStart_zero, ht]; decide))).1
  rw [loadedTenSeconds_pcmStart_zero, loadedTenSeconds_samplesPerVideoFrame] at h
  exact h

/-! ## C5 -/

/-- C5 (as stated, refuted): at `f = 1`, `fps = 24`, `sampleRate = 44100` the
exact offset is 1837.5 and `playAtFrame` seeks to 1837, not to `round(1837.5) = 1838`;
at `f = 1`, `fps = 24`, `sampleRate = 22050` the exact offset is 918.75 and the
code's 918 is not the nearest integer (919 is strictly nearer). -/
theorem pcmStart_not_rounded :
    (AudioHandler.loadedWith 44100 2 441000 24 []).pcmStart 1 = 1837 ∧
    Cmd.ma_sound_seek_to_pcm_frame 1837
      ∈ ((AudioHandler.loadedWith 44100 2 441000 24 []).playAtFrame 1 0).2 ∧
    specPcmStart 1 24 44100 = 1838 ∧
    (AudioHandler.loadedWith 22050 2 220500 24 []).pcmStart 1 = 918 ∧
    specPcmStart 1 24 22050 = 919 ∧
    |((919 : Int) : ℚ) - ((1 : Int) : ℚ) * 22050 / 24|
      < |((918 : Int) : ℚ) - ((1 : Int) : ℚ) * 22050 / 24| := by
  have hp : (AudioHandler.loadedWith 44100 2 441000 24 []).pcmStart 1 = 1837 := by
    have h := pcmStart_eq_floor (AudioHandler.loadedWith 44100 2 441000 24 []) 1
      (by norm_num [AudioHandler.loadedWith, AudioHandler.new])
      (by norm_num [AudioHandler.loadedWith, AudioHandler.new])
    have e : ⌊((1 : Int) : ℚ) / (AudioHandler.loadedWith 44100 2 441000 24 []).fps
        * ((AudioHandler.loadedWith 44100 2 441000 24 []).sampleRate : ℚ)⌋ = 1837 := by
      rw [Int.floor_eq_iff]
      norm_num [AudioHandler.loadedWith, AudioHandler.new]
    rw [e] at h
    exact_mod_cast h
  refine ⟨hp, ?_, ?_, ?_, ?_, ?_⟩
  · unfold AudioHandler.playAtFrame
    rw [hp]
    simp [AudioHandler.loadedWith, AudioHandler.new]
  · unfold specPcmStart
    rw [round_eq, Int.floor_eq_iff]
    norm_num
  · have h := pcmStart_eq_floor (AudioHandler.loadedWith 22050 2 220500 24 []) 1
      (by norm_num [AudioHandler.loadedWith, AudioHandler.new])
      (by norm_num [AudioHandler.loadedWith, AudioHandler.new])
    have e : ⌊((1 : Int) : ℚ) / (AudioHandler.loadedWith 22050 2 220500 24 []).fps
        * ((AudioHandler.loadedWith 22050 2 220500 24 []).sampleRate : ℚ)⌋ = 918 := by
      rw [Int.floor_eq_iff]
      norm_num [AudioHandler.loadedWith, AudioHandler.new]
    rw [e] at h
    exact_mod_cast h
  · unfold specPcmStart
    rw [round_eq, Int.floor_eq_iff]
    norm_num
  · norm_num [abs_lt, abs_of_pos, abs_of_neg]

/-- C5 (amended): for every frame `f >= 0` and positive fps, the PCM offset that
`playAtFrame(f)` seeks to is `f / fps * sampleRate` truncated to an integer,
`floor(f * sampleRate / fps)` (the offset being within `ma_uint64`): at most
the exact offset and more than the exact offset minus one. -/
theorem pcmStart_truncates (s : AudioHandler) (f : Int) (h0 : 0 ≤ f) (hfps : 0 < s.fps)
    (hrange : (f : ℚ) * (s.sampleRate : ℚ) / s.fps < 2 ^ 64) :
    (s.pcmStart f : Int) = ⌊(f : ℚ) * (s.sampleRate : ℚ) / s.fps⌋ ∧
    ((s.pcmStart f : Int) : ℚ) ≤ (f : ℚ) * (s.sampleRate : ℚ) / s.fps ∧
    (f : ℚ) * (s.sampleRate : ℚ) / s.fps - 1 < ((s.pcmStart f : Int) : ℚ) := by
  have e : (f : ℚ) / s.fps * (s.sampleRate : ℚ) = (f : ℚ) * (s.sampleRate : ℚ) / s.fps := by
    field_simp
  have hf0 : (0 : ℚ) ≤ (f : ℚ) := by exact_mod_cast h0
  have hnn : (0 : ℚ) ≤ (f : ℚ) / s.fps * (s.sampleRate : ℚ) := by positivity
  have h := pcmStart_eq_floor s f hnn (by rw [e]; exact hrange)
  rw [e] at h
  refine ⟨h, ?_, ?_⟩
  · rw [h]; exact Int.floor_le _
  · rw [h]; exact Int.sub_one_lt_floor _

/-- Witness for C5 (amended): `f = 1`, `fps = 24`, `sampleRate = 44100` seeks to 1837. -/
theorem pcmStart_truncates_witness :
    ((AudioHandler.loadedWith 44100 2 441000 24 []).pcmStart 1 : Int)
      = ⌊((1 : Int) : ℚ) * ((44100 : Nat) : ℚ) / 24⌋ :=
  (pcmStart_truncates (AudioHandler.loadedWith 44100 2 441000 24 []) 1 (by decide)
    (by norm_num [AudioHandler.loadedWith, AudioHandler.new])
    (by norm_num [AudioHandler.loadedWith, AudioHandler.new])).1

/-! ## Invariants of reachable states -/

theorem fillPayload_length (n : Nat) (pcm : List ℚ) : (fillPayload n pcm).length = n := by
  unfold fillPayload
  simp only [List.length_append, List.length_replicate, List.length_take]
  omega

/-- The fields `generateWaveform` leaves alone. -/
theorem generateWaveform_frame (s s' : AudioHandler) (w : Int)
    (h : s.generateWaveform w = some s') :
    ∃ l r n, s' = { s with waveformDataL := l, waveformDataR := r, waveformWidth := n } := by
  unfold AudioHandler.generateWaveform at h
  simp only at h
  split at h
  · exact ⟨none, none, 0, (Option.some.inj h).symm⟩
  · split at h
    · exact absurd h (by simp)
    · split at h
      · exact absurd h (by simp)
      · rename_i v _
        exact ⟨some v.1, some v.2, w, (Option.some.inj h).symm⟩

/-- The state `loadFile` works on once the engine is available: the clamped
fps is stored and, if the engine was created by this call, its sample rate. -/
theorem loadFile_cases (s : AudioHandler) (B : Backend) (fileName : String) (fps : ℚ) :
    (s.initialized = false ∧ B.engineInit = none ∧
      (s.loadFile B fileName fps).1 = false ∧
      (s.loadFile B fileName fps).2.1 = { s with fps := max 1 fps, engine := false }) ∨
    (∃ s2 : AudioHandler,
      ((s.initialized = true ∧ s2 = { s with fps := max 1 fps }) ∨
       (s.initialized = false ∧ ∃ rate, B.engineInit = some rate ∧
          s2 = { s with fps := max 1 fps, engine := true, sampleRate := rate,
                        initialized := true })) ∧
      ((B.soundInitFromFile fileName = false ∧
          (s.loadFile B fileName fps).1 = false ∧
          (s.loadFile B fileName fps).2.1
            = { s2 with sound := false, decoder := false, audioData := [],
                        fileLoaded := false, lastPlayedFrame := -9999 }) ∨
       (B.soundInitFromFile fileName = true ∧
          B.decoderInitFile fileName s2.sampleRate = none ∧
          (s.loadFile B fileName fps).1 = true ∧
          (s.loadFile B fileName fps).2.1
            = { s2 with sound := true, decoder := true, audioData := [],
                        fileLoaded := true, lastPlayedFrame := -9999,
                        currentFile := fileName }) ∨
       (B.soundInitFromFile fileName = true ∧
          ∃ d, B.decoderInitFile fileName s2.sampleRate = some d ∧
          (s.loadFile B fileName fps).1 = true ∧
          (s.loadFile B fileName fps).2.1
            = { s2 with sound := true, decoder := true, fileLoaded := true,
                        lastPlayedFrame := -9999, currentFile := fileName,
                        sampleRate := d.outputSampleRate,
                        channels := d.outputChannels,
                        totalPcmFrames := d.lengthInPcmFrames,
                        audioData :=
                          if 0 < d.lengthInPcmFrames ∧ d.lengthInPcmFrames < 30000000 then
                            fillPayload (d.lengthInPcmFrames * d.outputChannels) d.pcm
                          else [] }))) := by
  cases hi : s.initialized
  · cases hB : B.engineInit with
    | none =>
      left
      simp [AudioHandler.loadFile, AudioHandler.initEngine, hi, hB]
    | some rate =>
      right
      refine ⟨{ s with fps := max 1 fps, engine := true, sampleRate := rate,
                       initialized := true }, Or.inr ⟨rfl, rate, rfl, rfl⟩, ?_⟩
      cases ho : B.soundInitFromFile fileName
      · left
        simp [AudioHandler.loadFile, AudioHandler.initEngine, hi, hB, ho]
      · right
        cases hd : B.decoderInitFile fileName rate with
        | none =>
          left
          simp [AudioHandler.loadFile, AudioHandler.initEngine, hi, hB, ho, hd]
        | some d =>
          right
          refine ⟨rfl, d, rfl, ?_⟩
          simp [AudioHandler.loadFile, AudioHandler.initEngine, hi, hB, ho, hd]
  · right
    refine ⟨{ s with fps := max 1 fps }, Or.inl ⟨rfl, by simp [hi]⟩, ?_⟩
    cases ho : B.soundInitFromFile fileName
    · left
      simp [AudioHandler.loadFile, hi, ho]
    · right
      cases hd : B.decoderInitFile fileName s.sampleRate with
      | none =>
        left
        simp [AudioHandler.loadFile, hi, ho, hd]
      | some d =>
        right
        refine ⟨rfl, d, rfl, ?_⟩
        simp [AudioHandler.loadFile, hi, ho, hd]

/-- The state after `playAtFrame`: unchanged, or (only with a loaded asset, a
playable handle and an engine) the same state with the new cursor. -/
theorem playAtFrame_state (s : AudioHandler) (f : Int) (t : Nat) :
    (s.playAtFrame f t).1 = s ∨
    (s.fileLoaded = true ∧ s.sound = true ∧ s.engine = true ∧
      (s.playAtFrame f t).1 = { s with lastPlayedFrame := f }) := by
  by_cases c1 : s.fileLoaded = false ∨ s.sound = false ∨ s.engine = false
  · left; unfold AudioHandler.playAtFrame; rw [if_pos c1]
  · by_cases c2 : f = s.lastPlayedFrame
    · left; unfold AudioHandler.playAtFrame; rw [if_neg c1, if_pos c2]
    · have c3 : ¬ (s.sound = false ∨ s.engine = false) := fun h => c1 (Or.inr h)
      right
      simp only [not_or, Bool.not_eq_false] at c1
      refine ⟨c1.1, c1.2.1, c1.2.2, ?_⟩
      unfold AudioHandler.playAtFrame
      simp only [c1.1, c1.2.1, c1.2.2, c2, Bool.true_eq_false, or_self, if_false]
      split_ifs <;> rfl

/-- What holds in every reachable state: fps is at least 1; a playable handle
exists exactly when an asset is marked loaded, and only with an initialised
engine; without a loaded asset the cursor is the sentinel; before the engine is
initialised there is neither decoder nor payload; a non-empty payload has
`totalPcmFrames * channels` samples. -/
theorem reachable_invariant (s : AudioHandler) (h : Reachable s) :
    1 ≤ s.fps ∧ s.sound = s.fileLoaded ∧
    (s.sound = true → s.initialized = true) ∧
    (s.initialized = true → s.engine = true) ∧
    (s.fileLoaded = false → s.lastPlayedFrame = -9999) ∧
    (s.initialized = false → s.decoder = false ∧ s.audioData = []) ∧
    (s.audioData = [] ∨ s.audioData.length = s.totalPcmFrames * s.channels) := by
  induction h with
  | new => simp [AudioHandler.new]
  | newEager B =>
    unfold AudioHandler.newEager AudioHandler.initEngine
    cases hB : B.engineInit <;> simp [AudioHandler.new]
  | @loadFile s B fileName fps _ ih =>
    obtain ⟨i1, i2, i3, i3e, i4, i5, i6⟩ := ih
    have hm : (1 : ℚ) ≤ max 1 fps := le_max_left 1 fps
    have hsnd : s.initialized = false → s.sound = false := by
      intro hi
      cases hs : s.sound
      · rfl
      · have := i3 hs; simp [hi] at this
    rcases loadFile_cases s B fileName fps with ⟨hi, _, _, e⟩ | ⟨s2, hs2, hc⟩
    · rw [e]
      have h1 := hsnd hi
      have h2 : s.fileLoaded = false := by rw [← i2]; exact h1
      simp [hm, h1, h2, i4 h2, i5 hi, hi]
    · have k : s2.fps = max 1 fps ∧ s2.initialized = true ∧ s2.engine = true := by
        rcases hs2 with ⟨hi, rfl⟩ | ⟨hi, rate, _, rfl⟩
        · exact ⟨rfl, hi, i3e hi⟩
        · exact ⟨rfl, rfl, rfl⟩
      obtain ⟨k1, k2, k3⟩ := k
      rcases hc with ⟨_, _, e⟩ | ⟨ho, _, _, e⟩ | ⟨ho, d, _, _, e⟩
      · rw [e]; simp [k1, hm, k2, k3]
      · rw [e]; simp [k1, hm, k2, k3]
      · rw [e]
        refine ⟨by simp [k1, hm], rfl, fun _ => k2, fun _ => k3, by simp, by simp [k2], ?_⟩
        by_cases hc : 0 < d.lengthInPcmFrames ∧ d.lengthInPcmFrames < 30000000
        · right
          simp only [hc, and_self, if_true]
          exact fillPayload_length _ _
        · left
          simp only [hc, if_false]
  | @releaseFile s _ ih =>
    obtain ⟨i1, i2, i3, i3e, i4, i5, i6⟩ := ih
    exact ⟨i1, rfl, by simp [AudioHandler.releaseFile], i3e, fun _ => rfl, i5, i6⟩
  | @playAtFrame s frame engineTime _ ih =>
    obtain ⟨i1, i2, i3, i3e, i4, i5, i6⟩ := ih
    rcases playAtFrame_state s frame engineTime with e | ⟨hl, hs, he, e⟩
    · rw [e]; exact ⟨i1, i2, i3, i3e, i4, i5, i6⟩
    · rw [e]; exact ⟨i1, i2, i3, i3e, by simp [hl], i5, i6⟩
  | @stop s _ ih =>
    obtain ⟨i1, i2, i3, i3e, i4, i5, i6⟩ := ih
    exact ⟨i1, i2, i3, i3e, fun _ => rfl, i5, i6⟩
  | @setFps s fps _ ih =>
    obtain ⟨i1, i2, i3, i3e, i4, i5, i6⟩ := ih
    exact ⟨le_max_left 1 fps, i2, i3, i3e, i4, i5, i6⟩
  | @generateWaveform s s' w _ hg ih =>
    obtain ⟨l, r, n, rfl⟩ := generateWaveform_frame s s' w hg
    exact ih

/-! ## loadFile: failures and the stored fps -/

/-- C6: for every prior state in which the engine is or can be made available
(and for every reachable state whatever the engine does) and every path whose
playable handle fails to open, `loadFile` returns false and leaves no partial
asset: not loaded, no playable handle, no decode handle, empty payload, the
cursor at the sentinel -9999, and every following `playAtFrame` a no-op. -/
theorem loadFile_open_failure (s : AudioHandler) (B : Backend) (fileName : String) (fps : ℚ)
    (hopen : B.soundInitFromFile fileName = false)
    (hs : Reachable s ∨ s.initialized = true ∨ B.engineInit ≠ none) :
    (s.loadFile B fileName fps).1 = false ∧
    (s.loadFile B fileName fps).2.1.fileLoaded = false ∧
    (s.loadFile B fileName fps).2.1.sound = false ∧
    (s.loadFile B fileName fps).2.1.decoder = false ∧
    (s.loadFile B fileName fps).2.1.audioData = [] ∧
    (s.loadFile B fileName fps).2.1.lastPlayedFrame = -9999 ∧
    ∀ (f : Int) (t : Nat),
      (s.loadFile B fileName fps).2.1.playAtFrame f t = ((s.loadFile B fileName fps).2.1, []) := by
  have main : (s.loadFile B fileName fps).1 = false ∧
      (s.loadFile B fileName fps).2.1.fileLoaded = false ∧
      (s.loadFile B fileName fps).2.1.sound = false ∧
      (s.loadFile B fileName fps).2.1.decoder = false ∧
      (s.loadFile B fileName fps).2.1.audioData = [] ∧
      (s.loadFile B fileName fps).2.1.lastPlayedFrame = -9999 := by
    rcases loadFile_cases s B fileName fps with ⟨hi, hB, h1, e⟩ | ⟨s2, _, hc⟩
    · rcases hs with hr | hini | hB'
      · obtain ⟨_, i2, i3, _, i4, i5, _⟩ := reachable_invariant s hr
        have hsnd : s.sound = false := by
          cases hsd : s.sound
          · rfl
          · have := i3 hsd; simp [hi] at this
        have hfl : s.fileLoaded = false := by rw [← i2]; exact hsnd
        rw [e]
        exact ⟨h1, hfl, hsnd, (i5 hi).1, (i5 hi).2, i4 hfl⟩
      · simp [hi] at hini
      · exact absurd hB hB'
    · rcases hc with ⟨_, h1, e⟩ | ⟨ho, _⟩ | ⟨ho, _⟩
      · rw [e]
        exact ⟨h1, rfl, rfl, rfl, rfl, rfl⟩
      · simp [hopen] at ho
      · simp [hopen] at ho
  obtain ⟨m1, m2, m3, m4, m5, m6⟩ := main
  refine ⟨m1, m2, m3, m4, m5, m6, fun f t => ?_⟩
  unfold AudioHandler.playAtFrame
  rw [if_pos (Or.inl m2)]

/-- Witness for C6: a loaded ten-second asset, then a load whose open fails. -/
theorem loadFile_open_failure_witness :
    (loadedTenSeconds.loadFile Backend.opensNothing "missing.wav" 30).1 = false ∧
    (loadedTenSeconds.loadFile Backend.opensNothing "missing.wav" 30).2.1.fileLoaded = false ∧
    (loadedTenSeconds.loadFile Backend.opensNothing "missing.wav" 30).2.1.sound = false := by
  have h := loadFile_open_failure loadedTenSeconds Backend.opensNothing "missing.wav" 30 rfl
    (Or.inl (Reachable.loadFile _ _ _ Reachable.new))
  exact ⟨h.1, h.2.1, h.2.2.1⟩

/-- When the playable handle opens and the decode handle does not, `loadFile`
returns true, marks the asset loaded and leaves the payload empty, and
`totalPcmFrames` keeps whatever value it had before the call. -/
theorem loadFile_decoder_failure (s : AudioHandler) (B : Backend) (fileName : String) (fps : ℚ)
    (hs : s.initialized = true ∨ B.engineInit ≠ none)
    (hopen : B.soundInitFromFile fileName = true)
    (hdec : ∀ rate, B.decoderInitFile fileName rate = none) :
    (s.loadFile B fileName fps).1 = true ∧
    (s.loadFile B fileName fps).2.1.fileLoaded = true ∧
    (s.loadFile B fileName fps).2.1.audioData = [] ∧
    (s.loadFile B fileName fps).2.1.totalPcmFrames = s.totalPcmFrames := by
  rcases loadFile_cases s B fileName fps with ⟨hi, hB, _, _⟩ | ⟨s2, hs2, hc⟩
  · rcases hs with hini | hB'
    · simp [hi] at hini
    · exact absurd hB hB'
  · have ht : s2.totalPcmFrames = s.totalPcmFrames := by
      rcases hs2 with ⟨_, rfl⟩ | ⟨_, rate, _, rfl⟩ <;> rfl
    rcases hc with ⟨ho, _⟩ | ⟨_, _, h1, e⟩ | ⟨_, d, hd, _⟩
    · simp [hopen] at ho
    · rw [e]
      exact ⟨h1, rfl, rfl, ht⟩
    · simp [hdec] at hd

/-- C7 (evaluation at the failing input): after loading the ten-second
`known.wav`, loading `other.ogg` (playable handle opens, decode handle fails)
returns true with the asset marked loaded and an empty payload, but
`totalPcmFrames` is still 480000 and `getFileLengthInFrames()` is 250, not 0. -/
theorem loadFile_decoder_failure_stale_length :
    reloadedWithoutDecoder.1 = true ∧
    reloadedWithoutDecoder.2.1.fileLoaded = true ∧
    reloadedWithoutDecoder.2.1.audioData = [] ∧
    reloadedWithoutDecoder.2.1.totalPcmFrames = 480000 ∧
    reloadedWithoutDecoder.2.1.getFileLengthInFrames = 250 := by
  have hf : reloadedWithoutDecoder.1 = true ∧
      reloadedWithoutDecoder.2.1.fileLoaded = true ∧
      reloadedWithoutDecoder.2.1.audioData = [] ∧
      reloadedWithoutDecoder.2.1.totalPcmFrames = 480000 ∧
      reloadedWithoutDecoder.2.1.sampleRate = 48000 ∧
      reloadedWithoutDecoder.2.1.fps = 25 := by
    simp [reloadedWithoutDecoder, AudioHandler.loadFile, AudioHandler.initEngine,
      AudioHandler.new, Backend.decodesOnlyKnown, tenSeconds]
  obtain ⟨h1, h2, h3, h4, h5, h6⟩ := hf
  refine ⟨h1, h2, h3, h4, ?_⟩
  unfold AudioHandler.getFileLengthInFrames
  rw [h2, h4, h5, h6]
  norm_num [truncate]

/-- C10: after `loadFile(path, fps)`, whatever it returns, and after
`setFps(fps)`, `getFps()` is `max(1, fps)`; it is 25 at construction; hence in
every reachable state `getFps() >= 1`, so the divisor `_fps` of `playAtFrame`
and `getFileLengthInFrames` is positive. -/
theorem getFps_clamped :
    (∀ (s : AudioHandler) (B : Backend) (fileName : String) (fps : ℚ),
      (s.loadFile B fileName fps).2.1.getFps = max 1 fps) ∧
    (∀ (s : AudioHandler) (fps : ℚ), (s.setFps fps).getFps = max 1 fps) ∧
    AudioHandler.new.getFps = 25 ∧
    (∀ B : Backend, (AudioHandler.newEager B).getFps = 25) ∧
    (∀ s : AudioHandler, Reachable s → 1 ≤ s.getFps ∧ 0 < s.getFps) := by
  refine ⟨?_, fun s fps => rfl, rfl, ?_, ?_⟩
  · intro s B fileName fps
    unfold AudioHandler.getFps
    rcases loadFile_cases s B fileName fps with ⟨_, _, _, e⟩ | ⟨s2, hs2, hc⟩
    · rw [e]
    · have k : s2.fps = max 1 fps := by
        rcases hs2 with ⟨_, rfl⟩ | ⟨_, rate, _, rfl⟩ <;> rfl
      rcases hc with ⟨_, _, e⟩ | ⟨_, _, _, e⟩ | ⟨_, d, _, _, e⟩ <;> rw [e] <;> exact k
  · intro B
    unfold AudioHandler.newEager AudioHandler.initEngine AudioHandler.getFps
    cases hB : B.engineInit <;> simp [AudioHandler.new]
  · intro s hr
    have h := (reachable_invariant s hr).1
    exact ⟨h, lt_of_lt_of_le one_pos h⟩

/-- Witness for C10: the state after loading the ten-second asset is reachable. -/
theorem getFps_clamped_witness : 1 ≤ loadedTenSeconds.getFps ∧ 0 < loadedTenSeconds.getFps :=
  getFps_clamped.2.2.2.2 loadedTenSeconds (Reachable.loadFile _ _ _ Reachable.new)

/-! ## generateWaveform -/

theorem read_in_bounds (a : List ℚ) (i : Nat) (h : i < a.length) :
    a[i]? = some (a.getD i 0) := by
  rw [List.getElem?_eq_getElem h, List.getD_eq_getElem _ _ h]

/-- The inner loop reads inside the payload and folds `max` over `|sample|`:
the left accumulator over channel 0, the right one over channel 1 when there
are at least two channels (and it is untouched otherwise). -/
theorem peakLoop_spec (a : List ℚ) (ch : Nat) (hch : 1 ≤ ch) :
    ∀ (n i : Nat) (acc : ℚ × ℚ), (i + n) * ch ≤ a.length →
      ∃ m, peakLoop a ch i n acc = some m ∧
        (acc.1 ≤ m.1 ∧
          (∀ j, i ≤ j → j < i + n → |a.getD (j * ch) 0| ≤ m.1) ∧
          (m.1 = acc.1 ∨ ∃ j, i ≤ j ∧ j < i + n ∧ m.1 = |a.getD (j * ch) 0|)) ∧
        (2 ≤ ch → acc.2 ≤ m.2 ∧
          (∀ j, i ≤ j → j < i + n → |a.getD (j * ch + 1) 0| ≤ m.2) ∧
          (m.2 = acc.2 ∨ ∃ j, i ≤ j ∧ j < i + n ∧ m.2 = |a.getD (j * ch + 1) 0|)) ∧
        (ch < 2 → m.2 = acc.2) := by
  intro n
  induction n with
  | zero =>
    intro i acc _
    refine ⟨acc, rfl, ⟨le_refl _, ?_, Or.inl rfl⟩, fun _ => ⟨le_refl _, ?_, Or.inl rfl⟩,
      fun _ => rfl⟩
    · intro j h1 h2; omega
    · intro j h1 h2; omega
  | succ n ih =>
    intro i acc hb
    have hlen : (i + 1) * ch ≤ a.length := by
      have : (i + 1) * ch ≤ (i + (n + 1)) * ch := Nat.mul_le_mul_right _ (by omega)
      omega
    have hexp : (i + 1) * ch = i * ch + ch := by ring
    have h0 : i * ch < a.length := by omega
    have hb' : (i + 1 + n) * ch ≤ a.length := by
      have : i + 1 + n = i + (n + 1) := by omega
      rw [this]; exact hb
    by_cases h2 : 2 ≤ ch
    · have h1 : i * ch + 1 < a.length := by omega
      obtain ⟨m, hm, ⟨l1, l2, l3⟩, hr, _⟩ :=
        ih (i + 1) (max acc.1 |a.getD (i * ch) 0|, max acc.2 |a.getD (i * ch + 1) 0|) hb'
      obtain ⟨r1, r2, r3⟩ := hr h2
      refine ⟨m, ?_, ⟨?_, ?_, ?_⟩, fun _ => ⟨?_, ?_, ?_⟩, fun h => absurd h2 (by omega)⟩
      · simp only [peakLoop, read_in_bounds a _ h0, read_in_bounds a _ h1, h2, if_true]
        exact hm
      · exact le_trans (le_max_left _ _) l1
      · intro j hj1 hj2
        rcases Nat.eq_or_lt_of_le hj1 with e | e
        · rw [← e]; exact le_trans (le_max_right _ _) l1
        · exact l2 j e (by omega)
      · rcases l3 with e | ⟨j, hj1, hj2, e⟩
        · rcases max_choice acc.1 |a.getD (i * ch) 0| with c | c
          · left; rw [e]; exact c
          · right; exact ⟨i, le_refl _, by omega, by rw [e]; exact c⟩
        · right; exact ⟨j, by omega, by omega, e⟩
      · exact le_trans (le_max_left _ _) r1
      · intro j hj1 hj2
        rcases Nat.eq_or_lt_of_le hj1 with e | e
        · rw [← e]; exact le_trans (le_max_right _ _) r1
        · exact r2 j e (by omega)
      · rcases r3 with e | ⟨j, hj1, hj2, e⟩
        · rcases max_choice acc.2 |a.getD (i * ch + 1) 0| with c | c
          · left; rw [e]; exact c
          · right; exact ⟨i, le_refl _, by omega, by rw [e]; exact c⟩
        · right; exact ⟨j, by omega, by omega, e⟩
    · obtain ⟨m, hm, ⟨l1, l2, l3⟩, _, hr⟩ :=
        ih (i + 1) (max acc.1 |a.getD (i * ch) 0|, acc.2) hb'
      refine ⟨m, ?_, ⟨?_, ?_, ?_⟩, fun h => absurd h h2, fun h => hr h⟩
      · simp only [peakLoop, read_in_bounds a _ h0, h2, if_false]
        exact hm
      · exact le_trans (le_max_left _ _) l1
      · intro j hj1 hj2
        rcases Nat.eq_or_lt_of_le hj1 with e | e
        · rw [← e]; exact le_trans (le_max_right _ _) l1
        · exact l2 j e (by omega)
      · rcases l3 with e | ⟨j, hj1, hj2, e⟩
        · rcases max_choice acc.1 |a.getD (i * ch) 0| with c | c
          · left; rw [e]; exact c
          · right; exact ⟨i, le_refl _, by omega, by rw [e]; exact c⟩
        · right; exact ⟨j, by omega, by omega, e⟩

/-- One pixel bucket: the inner loop over `[lo, hi)` started from `(0, 0)`
returns the peak of channel 0 and, in its second component when there are at
least two channels, the peak of channel 1. -/
theorem bucket_spec (a : List ℚ) (ch N lo hi : Nat) (hch : 1 ≤ ch)
    (hN : N * ch ≤ a.length) (hhi : hi ≤ N) :
    ∃ m, peakLoop a ch lo (hi - lo) (0, 0) = some m ∧
      IsPeak a ch 0 lo hi m.1 ∧
      IsPeak a ch (if 2 ≤ ch then 1 else 0) lo hi (if 2 ≤ ch then m.2 else m.1) := by
  have inb : ∀ i, i < hi → ∀ c, c < ch → i * ch + c < a.length := by
    intro i hi' c hc
    have h1 : (i + 1) * ch ≤ N * ch := Nat.mul_le_mul_right _ (by omega)
    have h2 : (i + 1) * ch = i * ch + ch := by ring
    omega
  rcases Nat.lt_or_ge lo hi with hlt | hge
  · have hb : (lo + (hi - lo)) * ch ≤ a.length := by
      have e : lo + (hi - lo) = hi := by omega
      rw [e]
      exact le_trans (Nat.mul_le_mul_right _ hhi) hN
    obtain ⟨m, hm, ⟨l1, l2, l3⟩, hr, hmono⟩ := peakLoop_spec a ch hch (hi - lo) lo (0, 0) hb
    have e : lo + (hi - lo) = hi := by omega
    rw [e] at l2 l3
    have peakL : IsPeak a ch 0 lo hi m.1 := by
      refine ⟨l1, ?_, fun h => absurd hlt (by omega), fun _ => ?_⟩
      · intro i h1 h2
        exact ⟨by simpa using inb i h2 0 (by omega), by simpa using l2 i h1 h2⟩
      · rcases l3 with z | ⟨j, hj1, hj2, hj⟩
        · refine ⟨lo, le_refl _, hlt, ?_⟩
          have h := l2 lo (le_refl _) hlt
          rw [z] at h
          have h' : |a.getD (lo * ch) 0| = 0 := le_antisymm h (abs_nonneg _)
          simp only [Nat.add_zero]
          rw [z, h']
        · exact ⟨j, hj1, hj2, by simpa using hj⟩
    refine ⟨m, hm, peakL, ?_⟩
    by_cases h2 : 2 ≤ ch
    · obtain ⟨r1, r2, r3⟩ := hr h2
      rw [e] at r2 r3
      simp only [h2, if_true]
      refine ⟨r1, ?_, fun h => absurd hlt (by omega), fun _ => ?_⟩
      · intro i h1 h2'
        exact ⟨inb i h2' 1 (by omega), r2 i h1 h2'⟩
      · rcases r3 with z | ⟨j, hj1, hj2, hj⟩
        · refine ⟨lo, le_refl _, hlt, ?_⟩
          have h := r2 lo (le_refl _) hlt
          rw [z] at h
          have h' : |a.getD (lo * ch + 1) 0| = 0 := le_antisymm h (abs_nonneg _)
          rw [z, h']
        · exact ⟨j, hj1, hj2, hj⟩
    · simp only [h2, if_false]
      exact peakL
  · have e : hi - lo = 0 := by omega
    rw [e]
    refine ⟨(0, 0), rfl, ?_, ?_⟩
    · exact ⟨le_refl _, fun i h1 h2 => absurd h2 (by omega), fun _ => rfl,
        fun h => absurd h (by omega)⟩
    · have : (if 2 ≤ ch then ((0 : ℚ), (0 : ℚ)).2 else ((0 : ℚ), (0 : ℚ)).1) = 0 := by
        split_ifs <;> rfl
      rw [this]
      exact ⟨le_refl _, fun i h1 h2 => absurd h2 (by omega), fun _ => rfl,
        fun h => absurd h (by omega)⟩

/-- The outer loop started at pixel `x` for `n` pixels returns two sequences of
`n` entries; entry `k` is the peak of the window of pixel `x + k`; with fewer
than two channels the sequences coincide. -/
theorem pixelLoop_spec (a : List ℚ) (ch N spp : Nat) (hch : 1 ≤ ch) (hN : N * ch ≤ a.length) :
    ∀ (n x : Nat), ∃ w, pixelLoop a ch N spp x n = some w ∧
      w.1.length = n ∧ w.2.length = n ∧
      (∀ k, k < n →
        IsPeak a ch 0 ((x + k) * spp) (min ((x + k + 1) * spp) N) (w.1.getD k 0) ∧
        IsPeak a ch (if 2 ≤ ch then 1 else 0) ((x + k) * spp) (min ((x + k + 1) * spp) N)
          (w.2.getD k 0)) ∧
      (ch < 2 → w.1 = w.2) := by
  intro n
  induction n with
  | zero =>
    intro x
    exact ⟨([], []), rfl, rfl, rfl, fun k hk => absurd hk (by omega), fun _ => rfl⟩
  | succ n ih =>
    intro x
    obtain ⟨m, hm, pL, pR⟩ :=
      bucket_spec a ch N (x * spp) (min (x * spp + spp) N) hch hN (Nat.min_le_right _ _)
    obtain ⟨rest, hrest, len1, len2, hp, hmono⟩ := ih (x + 1)
    refine ⟨(m.1 :: rest.1, (if 2 ≤ ch then m.2 else m.1) :: rest.2), ?_, ?_, ?_, ?_, ?_⟩
    · simp only [pixelLoop, hm, hrest]
    · simp [len1]
    · simp [len2]
    · intro k hk
      have hx : (x + 1) * spp = x * spp + spp := by ring
      cases k with
      | zero =>
        simp only [Nat.add_zero, List.getD_cons_zero, hx]
        exact ⟨pL, pR⟩
      | succ k =>
        have e : x + (k + 1) = x + 1 + k := by omega
        simp only [List.getD_cons_succ, e]
        exact hp k (by omega)
    · intro h2
      have : ¬ 2 ≤ ch := by omega
      simp only [this, if_false, hmono h2]

/-- With a loaded asset, a non-empty payload, a non-zero channel count and
`w >= 1`, `generateWaveform` is its outer loop followed by the stores. -/
theorem generateWaveform_main (s : AudioHandler) (w : Int) (hl : s.fileLoaded = true)
    (hne : s.audioData ≠ []) (hch : s.channels ≠ 0) (hw : 1 ≤ w) :
    s.generateWaveform w
      = (pixelLoop s.audioData s.channels s.totalSamples (s.samplesPerPixel w) 0 w.toNat).map
          (fun v => { s with waveformDataL := some v.1, waveformDataR := some v.2,
                             waveformWidth := w }) := by
  have hw' : ¬ w ≤ 0 := by omega
  have hemp : s.audioData.isEmpty = false := by
    cases h : s.audioData with
    | nil => exact absurd h hne
    | cons _ _ => rfl
  have c1 : ¬ (s.fileLoaded = false ∨ s.audioData.isEmpty = true ∨ w ≤ 0) := by
    simp [hl, hemp, hw']
  unfold AudioHandler.generateWaveform
  simp only
  rw [if_neg c1, if_neg hch]
  have e1 : ({ s with waveformDataL := none, waveformDataR := none,
                      waveformWidth := 0 } : AudioHandler).totalSamples = s.totalSamples := rfl
  have e2 : ({ s with waveformDataL := none, waveformDataR := none,
                      waveformWidth := 0 } : AudioHandler).samplesPerPixel w
      = s.samplesPerPixel w := rfl
  rw [e1, e2]
  cases pixelLoop s.audioData s.channels s.totalSamples (s.samplesPerPixel w) 0 w.toNat <;> rfl

/-- The main branch of `generateWaveform`: with a loaded asset, a non-empty
payload, a non-zero channel count and `w >= 1` it returns, having read only
inside the payload, with width `w` and two sequences of `w` peaks. -/
theorem generateWaveform_loaded (s : AudioHandler) (w : Int) (hl : s.fileLoaded = true)
    (hne : s.audioData ≠ []) (hch : s.channels ≠ 0) (hw : 1 ≤ w) :
    ∃ l r, s.generateWaveform w
        = some { s with waveformDataL := some l, waveformDataR := some r, waveformWidth := w } ∧
      l.length = w.toNat ∧ r.length = w.toNat ∧
      (∀ x, x < w.toNat →
        IsPeak s.audioData s.channels 0 (x * s.samplesPerPixel w)
          (min ((x + 1) * s.samplesPerPixel w) s.totalSamples) (l.getD x 0) ∧
        IsPeak s.audioData s.channels (if 2 ≤ s.channels then 1 else 0)
          (x * s.samplesPerPixel w)
          (min ((x + 1) * s.samplesPerPixel w) s.totalSamples) (r.getD x 0)) ∧
      (s.channels < 2 → l = r) := by
  have hN : s.totalSamples * s.channels ≤ s.audioData.length := Nat.div_mul_le_self _ _
  obtain ⟨v, hv, len1, len2, hp, hmono⟩ :=
    pixelLoop_spec s.audioData s.channels s.totalSamples (s.samplesPerPixel w)
      (Nat.one_le_iff_ne_zero.mpr hch) hN w.toNat 0
  refine ⟨v.1, v.2, ?_, len1, len2, ?_, hmono⟩
  · rw [generateWaveform_main s w hl hne hch hw, hv]
    rfl
  · intro x hx
    have h := hp x hx
    simp only [Nat.zero_add] at h
    exact h

/-- C8: for every state (with a non-zero channel count whenever the payload is
non-empty, as in every reachable state) and every integer `w`,
`generateWaveform(w)` returns; if an asset is loaded, the payload is non-empty
and `w >= 1`, then `getWaveformWidth() = w` and both sequences have exactly `w`
entries; otherwise the waveform is discarded: width 0 and both sequences
absent. In both cases the width is 0 iff both sequences are empty. -/
theorem generateWaveform_width (s : AudioHandler) (w : Int)
    (hch : s.audioData ≠ [] → s.channels ≠ 0) :
    ∃ s', s.generateWaveform w = some s' ∧
      (s.fileLoaded = true ∧ s.audioData ≠ [] ∧ 1 ≤ w →
        s'.getWaveformWidth = w ∧
        ∃ l r, s'.waveformDataL = some l ∧ s'.waveformDataR = some r ∧
          (l.length : Int) = w ∧ (r.length : Int) = w) ∧
      (¬ (s.fileLoaded = true ∧ s.audioData ≠ [] ∧ 1 ≤ w) →
        s'.getWaveformWidth = 0 ∧ s'.waveformDataL = none ∧ s'.waveformDataR = none) ∧
      (s'.getWaveformWidth = 0 ↔
        (s'.waveformDataL.getD [] = [] ∧ s'.waveformDataR.getD [] = [])) := by
  by_cases c : s.fileLoaded = true ∧ s.audioData ≠ [] ∧ 1 ≤ w
  · obtain ⟨hl, hne, hw⟩ := c
    obtain ⟨l, r, hg, len1, len2, _, _⟩ := generateWaveform_loaded s w hl hne (hch hne) hw
    have hl1 : (l.length : Int) = w := by rw [len1]; exact Int.toNat_of_nonneg (by omega)
    have hr1 : (r.length : Int) = w := by rw [len2]; exact Int.toNat_of_nonneg (by omega)
    refine ⟨_, hg, fun _ => ⟨rfl, l, r, rfl, rfl, hl1, hr1⟩,
      fun h => absurd ⟨hl, hne, hw⟩ h, ?_⟩
    constructor
    · intro h0
      have : w = 0 := h0
      omega
    · rintro ⟨h1, _⟩
      have h1' : l = [] := h1
      rw [h1'] at hl1
      simp at hl1
      omega
  · refine ⟨{ s with waveformDataL := none, waveformDataR := none, waveformWidth := 0 },
      ?_, fun h => absurd h c, fun _ => ⟨rfl, rfl, rfl⟩, ?_⟩
    · have c' : s.fileLoaded = false ∨ s.audioData.isEmpty = true ∨ w ≤ 0 := by
        by_cases h1 : s.fileLoaded = true
        · by_cases h2 : s.audioData = []
          · right; left; rw [h2]; rfl
          · right; right
            by_contra h3
            exact c ⟨h1, h2, by omega⟩
        · left; simpa using h1
      unfold AudioHandler.generateWaveform
      simp only
      rw [if_pos c']
    · exact ⟨fun _ => ⟨rfl, rfl⟩, fun _ => rfl⟩

/-- Witness for C8: four stereo sample frames, `generateWaveform(2)`. -/
theorem generateWaveform_width_witness :
    ∃ s', stereoFour.generateWaveform 2 = some s' ∧ s'.getWaveformWidth = 2 ∧
      ∃ l r, s'.waveformDataL = some l ∧ s'.waveformDataR = some r ∧
        (l.length : Int) = 2 ∧ (r.length : Int) = 2 := by
  obtain ⟨s', h1, h2, _, _⟩ := generateWaveform_width stereoFour 2 (fun _ => by decide)
  exact ⟨s', h1, h2 ⟨rfl, by simp [stereoFour, AudioHandler.loadedWith], by decide⟩⟩

/-- C9: for a loaded non-empty interleaved payload with `N = length / channels`
sample frames and `w >= 1`, with `samplesPerPixel = max(1, N / w)`:
`generateWaveform(w)` returns without reading outside the payload; entry `x`
of the left sequence is the peak of channel 0 over the frames
`x * samplesPerPixel <= i < min((x + 1) * samplesPerPixel, N)` and entry `x` of
the right sequence the peak of channel 1 (of channel 0 for a mono payload),
where a peak is the maximum of `|sample|` over the window, 0 on an empty
window, non-negative and at least `|s|` for every sample `s` of the window; for
a mono payload both sequences are equal. -/
theorem generateWaveform_peaks (s : AudioHandler) (w : Int) (hl : s.fileLoaded = true)
    (hne : s.audioData ≠ []) (hch : s.channels ≠ 0) (hw : 1 ≤ w) :
    s.samplesPerPixel w = max 1 (s.audioData.length / s.channels / w.toNat) ∧
    ∃ l r, s.generateWaveform w
        = some { s with waveformDataL := some l, waveformDataR := some r, waveformWidth := w } ∧
      l.length = w.toNat ∧ r.length = w.toNat ∧
      (∀ x, x < w.toNat →
        IsPeak s.audioData s.channels 0 (x * s.samplesPerPixel w)
          (min ((x + 1) * s.samplesPerPixel w) (s.audioData.length / s.channels)) (l.getD x 0) ∧
        IsPeak s.audioData s.channels (if 2 ≤ s.channels then 1 else 0)
          (x * s.samplesPerPixel w)
          (min ((x + 1) * s.samplesPerPixel w) (s.audioData.length / s.channels))
          (r.getD x 0)) ∧
      (s.channels = 1 → l = r) := by
  obtain ⟨l, r, hg, len1, len2, hp, hmono⟩ := generateWaveform_loaded s w hl hne hch hw
  exact ⟨rfl, l, r, hg, len1, len2, hp, fun h => hmono (by omega)⟩

/-- Witness for C9: 10,000 stereo sample frames and `w = 100` give
`samplesPerPixel = 100`, 100 entries per channel, and entry 0 is the peak of
the frames `[0, 100)`. -/
theorem generateWaveform_peaks_witness :
    stereoTenThousand.samplesPerPixel 100 = 100 ∧
    ∃ l r, stereoTenThousand.generateWaveform 100
        = some { stereoTenThousand with
                 waveformDataL := some l, waveformDataR := some r, waveformWidth := 100 } ∧
      l.length = 100 ∧ r.length = 100 ∧
      IsPeak stereoTenThousand.audioData 2 0 0 100 (l.getD 0 0) ∧
      IsPeak stereoTenThousand.audioData 2 1 0 100 (r.getD 0 0) := by
  have hlen : stereoTenThousand.audioData.length = 20000 :=
    List.length_replicate 20000 (1 / 2 : ℚ)
  have hc : stereoTenThousand.channels = 2 := rfl
  have hne : stereoTenThousand.audioData ≠ [] := by
    intro h
    rw [h] at hlen
    simp at hlen
  obtain ⟨hspp, l, r, hg, len1, len2, hp, _⟩ :=
    generateWaveform_peaks stereoTenThousand 100 rfl hne (by rw [hc]; decide) (by decide)
  have hs : stereoTenThousand.samplesPerPixel 100 = 100 := by
    rw [hspp, hlen, hc]
    decide
  have h0 := hp 0 (by decide)
  rw [hs, hlen, hc] at h0
  exact ⟨hs, l, r, hg, len1, len2, by simpa using h0.1, by simpa using h0.2⟩

/-! ## stop -/

/-- C11: in every reachable state with no asset loaded, `stop()` returns,
issues no backend command and leaves the whole state unchanged; hence any
number of `stop()` calls in a row leaves the state as it was. -/
theorem stop_unloaded (s : AudioHandler) (hr : Reachable s) (hl : s.fileLoaded = false) :
    s.stop = (s, []) ∧ ∀ n : Nat, (fun x : AudioHandler => x.stop.1)^[n] s = s := by
  obtain ⟨_, i2, _, _, i4, _, _⟩ := reachable_invariant s hr
  have hs : s.sound = false := by rw [i2]; exact hl
  have hlast : s.lastPlayedFrame = -9999 := i4 hl
  have e : s.stop = (s, []) := by
    have he : ({ s with lastPlayedFrame := -9999 } : AudioHandler) = s := by
      rw [← hlast]
    unfold AudioHandler.stop
    rw [he, hs]
    rfl
  refine ⟨e, fun n => ?_⟩
  induction n with
  | zero => rfl
  | succ n ih =>
    rw [Function.iterate_succ_apply']
    rw [ih, e]

/-- Witness for C11: the freshly constructed controller. -/
theorem stop_unloaded_witness :
    AudioHandler.new.stop = (AudioHandler.new, []) ∧
    ∀ n : Nat, (fun x : AudioHandler => x.stop.1)^[n] AudioHandler.new = AudioHandler.new :=
  stop_unloaded AudioHandler.new Reachable.new rfl

/-! ## loadFile, releaseFile, loadFile -/

/-- A successful `loadFile`: the playable handle opened, the engine is
initialised afterwards, the decoder was asked for `requestedRate`, and when it
opened the three format fields are the ones it reports. -/
theorem loadFile_success (s : AudioHandler) (B : Backend) (fileName : String) (fps : ℚ)
    (h : (s.loadFile B fileName fps).1 = true) :
    B.soundInitFromFile fileName = true ∧
    (s.loadFile B fileName fps).2.1.initialized = true ∧
    Cmd.ma_decoder_init_file fileName (s.requestedRate B) ∈ (s.loadFile B fileName fps).2.2 ∧
    (∀ d, B.decoderInitFile fileName (s.requestedRate B) = some d →
      (s.loadFile B fileName fps).2.1.sampleRate = d.outputSampleRate ∧
      (s.loadFile B fileName fps).2.1.channels = d.outputChannels ∧
      (s.loadFile B fileName fps).2.1.totalPcmFrames = d.lengthInPcmFrames) := by
  cases hi : s.initialized
  · cases hB : B.engineInit with
    | none =>
      simp [AudioHandler.loadFile, AudioHandler.initEngine, hi, hB] at h
    | some rate =>
      cases ho : B.soundInitFromFile fileName
      · simp [AudioHandler.loadFile, AudioHandler.initEngine, hi, hB, ho] at h
      · cases hd : B.decoderInitFile fileName rate with
        | none =>
          simp [AudioHandler.loadFile, AudioHandler.initEngine, AudioHandler.requestedRate,
            hi, hB, ho, hd]
        | some d =>
          simp [AudioHandler.loadFile, AudioHandler.initEngine, AudioHandler.requestedRate,
            hi, hB, ho, hd]
  · cases ho : B.soundInitFromFile fileName
    · simp [AudioHandler.loadFile, hi, ho] at h
    · cases hd : B.decoderInitFile fileName s.sampleRate with
      | none =>
        simp [AudioHandler.loadFile, AudioHandler.requestedRate, hi, ho, hd]
      | some d =>
        simp [AudioHandler.loadFile, AudioHandler.requestedRate, hi, ho, hd]

/-- With an initialised engine `loadFile` succeeds as soon as the playable
handle opens. -/
theorem loadFile_true_of (s : AudioHandler) (B : Backend) (fileName : String) (fps : ℚ)
    (hi : s.initialized = true) (ho : B.soundInitFromFile fileName = true) :
    (s.loadFile B fileName fps).1 = true := by
  cases hd : B.decoderInitFile fileName s.sampleRate <;>
    simp [AudioHandler.loadFile, hi, ho, hd]

/-- C12 (as stated, refuted): with a decoder that is a function of the path and
the requested rate but reports the file's own 44.1 kHz, the first load asks the
decoder for 48000 Hz and the load after `releaseFile` asks for 44100 Hz, not
for 48000; and when that decoder's length depends on the rate asked for, the
two loads end with different `totalPcmFrames` (480000, then 441000). -/
theorem reload_requests_reported_rate :
    ((AudioHandler.new.loadFile Backend.nativeRate "clip.wav" 25).1 = true ∧
      Cmd.ma_decoder_init_file "clip.wav" 48000
        ∈ (AudioHandler.new.loadFile Backend.nativeRate "clip.wav" 25).2.2 ∧
      Cmd.ma_decoder_init_file "clip.wav" 44100
        ∈ ((AudioHandler.new.loadFile Backend.nativeRate "clip.wav" 25).2.1.releaseFile.1.loadFile
            Backend.nativeRate "clip.wav" 25).2.2 ∧
      Cmd.ma_decoder_init_file "clip.wav" 48000
        ∉ ((AudioHandler.new.loadFile Backend.nativeRate "clip.wav" 25).2.1.releaseFile.1.loadFile
            Backend.nativeRate "clip.wav" 25).2.2) ∧
    ((AudioHandler.new.loadFile Backend.misreportsRate "clip.wav" 25).1 = true ∧
      (AudioHandler.new.loadFile Backend.misreportsRate "clip.wav" 25).2.1.totalPcmFrames
        = 480000 ∧
      ((AudioHandler.new.loadFile Backend.misreportsRate "clip.wav"
          25).2.1.releaseFile.1.loadFile Backend.misreportsRate "clip.wav" 25).2.1.totalPcmFrames
        = 441000) := by
  refine ⟨⟨?_, ?_, ?_, ?_⟩, ?_, ?_, ?_⟩ <;>
    simp [AudioHandler.loadFile, AudioHandler.initEngine, AudioHandler.releaseFile,
      AudioHandler.new, Backend.nativeRate, Backend.misreportsRate]

/-- C12 (amended): when `loadFile` succeeds with a working decode handle and the
decoder, asked again for the sample rate it reported, gives the same result,
then `loadFile; releaseFile; loadFile` on the same path succeeds and ends with
the same `sampleRate`, `channels` and `totalPcmFrames` as the first load. The
second load asks the decoder for the rate the first decode reported; that is
the rate asked for in the first load when the decoder reported the rate it was
asked for. -/
theorem loadFile_release_loadFile (s : AudioHandler) (B : Backend) (fileName : String)
    (fps : ℚ) (d : DecodedFile)
    (hok : (s.loadFile B fileName fps).1 = true)
    (hd : B.decoderInitFile fileName (s.requestedRate B) = some d)
    (hstable : B.decoderInitFile fileName d.outputSampleRate = some d) :
    ((s.loadFile B fileName fps).2.1.releaseFile.1.loadFile B fileName fps).1 = true ∧
    ((s.loadFile B fileName fps).2.1.releaseFile.1.loadFile B fileName fps).2.1.sampleRate
      = (s.loadFile B fileName fps).2.1.sampleRate ∧
    ((s.loadFile B fileName fps).2.1.releaseFile.1.loadFile B fileName fps).2.1.channels
      = (s.loadFile B fileName fps).2.1.channels ∧
    ((s.loadFile B fileName fps).2.1.releaseFile.1.loadFile B fileName fps).2.1.totalPcmFrames
      = (s.loadFile B fileName fps).2.1.totalPcmFrames ∧
    Cmd.ma_decoder_init_file fileName d.outputSampleRate
      ∈ ((s.loadFile B fileName fps).2.1.releaseFile.1.loadFile B fileName fps).2.2 ∧
    (s.loadFile B fileName fps).2.1.releaseFile.1.requestedRate B = d.outputSampleRate ∧
    (d.outputSampleRate = s.requestedRate B →
      (s.loadFile B fileName fps).2.1.releaseFile.1.requestedRate B = s.requestedRate B) := by
  obtain ⟨ho, hini, _, hf⟩ := loadFile_success s B fileName fps hok
  obtain ⟨f1, f2, f3⟩ := hf d hd
  have hini' : (s.loadFile B fileName fps).2.1.releaseFile.1.initialized = true := hini
  have hrate : (s.loadFile B fileName fps).2.1.releaseFile.1.requestedRate B
      = d.outputSampleRate := by
    unfold AudioHandler.requestedRate
    rw [hini']
    exact f1
  have hok2 := loadFile_true_of (s.loadFile B fileName fps).2.1.releaseFile.1 B fileName fps
    hini' ho
  obtain ⟨_, _, hreq, hf2⟩ :=
    loadFile_success (s.loadFile B fileName fps).2.1.releaseFile.1 B fileName fps hok2
  rw [hrate] at hreq hf2
  obtain ⟨g1, g2, g3⟩ := hf2 d hstable
  exact ⟨hok2, by rw [g1, f1], by rw [g2, f2], by rw [g3, f3], hreq, hrate,
    fun h => by rw [hrate, h]⟩

/-- Witness for C12 (amended): the ten-second asset, whose decoder reports the
48000 Hz it is asked for. -/
theorem loadFile_release_loadFile_witness :
    (loadedTenSeconds.releaseFile.1.loadFile (Backend.always tenSeconds) "clip.wav" 25).2.1.sampleRate
      = loadedTenSeconds.sampleRate ∧
    (loadedTenSeconds.releaseFile.1.loadFile (Backend.always tenSeconds) "clip.wav"
        25).2.1.totalPcmFrames
      = loadedTenSeconds.totalPcmFrames := by
  have h := loadFile_release_loadFile AudioHandler.new (Backend.always tenSeconds) "clip.wav" 25
    tenSeconds
    (by simp [AudioHandler.loadFile, AudioHandler.initEngine, AudioHandler.new, Backend.always])
    rfl rfl
  exact ⟨h.2.1, h.2.2.2.1⟩

/-! ## The waveform cache -/

/-- In every reachable state a non-empty payload belongs to an asset below the
ceiling of 30,000,000 PCM frames. -/
theorem reachable_payload_bound (s : AudioHandler) (h : Reachable s) :
    s.audioData = [] ∨ (0 < s.totalPcmFrames ∧ s.totalPcmFrames < 30000000) := by
  induction h with
  | new => left; rfl
  | newEager B =>
    left
    unfold AudioHandler.newEager AudioHandler.initEngine
    cases hB : B.engineInit <;> simp [AudioHandler.new]
  | @loadFile s B fileName fps hr ih =>
    rcases loadFile_cases s B fileName fps with ⟨hi, _, _, e⟩ | ⟨s2, hs2, hc⟩
    · rw [e]
      left
      exact ((reachable_invariant s hr).2.2.2.2.2.1 hi).2
    · rcases hc with ⟨_, _, e⟩ | ⟨_, _, _, e⟩ | ⟨_, d, _, _, e⟩
      · rw [e]; left; rfl
      · rw [e]; left; rfl
      · rw [e]
        by_cases hc : 0 < d.lengthInPcmFrames ∧ d.lengthInPcmFrames < 30000000
        · right; exact hc
        · left
          simp only [hc, if_false]
  | @releaseFile s _ ih => exact ih
  | @playAtFrame s frame engineTime _ ih =>
    rcases playAtFrame_state s frame engineTime with e | ⟨_, _, _, e⟩
    · rw [e]; exact ih
    · rw [e]; exact ih
  | @stop s _ ih => exact ih
  | @setFps s fps _ ih => exact ih
  | @generateWaveform s s' w _ hg ih =>
    obtain ⟨l, r, n, rfl⟩ := generateWaveform_frame s s' w hg
    exact ih

/-- The early return of `generateWaveform`: the cache is cleared. -/
theorem generateWaveform_early (s : AudioHandler) (w : Int)
    (h : s.fileLoaded = false ∨ s.audioData = [] ∨ w ≤ 0) :
    s.generateWaveform w
      = some { s with waveformDataL := none, waveformDataR := none, waveformWidth := 0 } := by
  have c : s.fileLoaded = false ∨ s.audioData.isEmpty = true ∨ w ≤ 0 := by
    rcases h with h | h | h
    · exact Or.inl h
    · right; left; rw [h]; rfl
    · exact Or.inr (Or.inr h)
  unfold AudioHandler.generateWaveform
  simp only
  rw [if_pos c]

/-- Whatever `generateWaveform` returns has a cache that is empty or filled. -/
theorem generateWaveform_cache (s s' : AudioHandler) (w : Int)
    (h : s.generateWaveform w = some s') : s'.waveformEmpty ∨ s'.waveformFilled := by
  by_cases c : s.fileLoaded = false ∨ s.audioData = [] ∨ w ≤ 0
  · rw [generateWaveform_early s w c] at h
    left
    rw [← Option.some.inj h]
    exact ⟨rfl, rfl, rfl⟩
  · simp only [not_or, Bool.not_eq_false, not_le] at c
    obtain ⟨hl, hne, hw⟩ := c
    have hch : s.channels ≠ 0 := by
      intro h0
      have hemp : s.audioData.isEmpty = false := by
        cases hq : s.audioData with
        | nil => exact absurd hq hne
        | cons _ _ => rfl
      have c1 : ¬ (s.fileLoaded = false ∨ s.audioData.isEmpty = true ∨ w ≤ 0) := by
        simp [hl, hemp, hw]
      unfold AudioHandler.generateWaveform at h
      simp only at h
      rw [if_neg c1, if_pos h0] at h
      exact absurd h (by simp)
    obtain ⟨l, r, hg, len1, len2, _, _⟩ := generateWaveform_loaded s w hl hne hch (by omega)
    rw [hg] at h
    right
    rw [← Option.some.inj h]
    refine ⟨hw, l, r, rfl, rfl, ?_, ?_⟩
    · show (l.length : Int) = w
      rw [len1]; exact Int.toNat_of_nonneg (by omega)
    · show (r.length : Int) = w
      rw [len2]; exact Int.toNat_of_nonneg (by omega)

/-- `loadFile` does not write the waveform cache. -/
theorem loadFile_keeps_waveform (s : AudioHandler) (B : Backend) (fileName : String) (fps : ℚ) :
    (s.loadFile B fileName fps).2.1.waveformWidth = s.waveformWidth ∧
    (s.loadFile B fileName fps).2.1.waveformDataL = s.waveformDataL ∧
    (s.loadFile B fileName fps).2.1.waveformDataR = s.waveformDataR := by
  rcases loadFile_cases s B fileName fps with ⟨_, _, _, e⟩ | ⟨s2, hs2, hc⟩
  · rw [e]; exact ⟨rfl, rfl, rfl⟩
  · have k : s2.waveformWidth = s.waveformWidth ∧ s2.waveformDataL = s.waveformDataL ∧
        s2.waveformDataR = s.waveformDataR := by
      rcases hs2 with ⟨_, rfl⟩ | ⟨_, rate, _, rfl⟩ <;> exact ⟨rfl, rfl, rfl⟩
    rcases hc with ⟨_, _, e⟩ | ⟨_, _, _, e⟩ | ⟨_, d, _, _, e⟩ <;> rw [e] <;> exact k

/-- `playAtFrame` does not write the waveform cache. -/
theorem playAtFrame_keeps_waveform (s : AudioHandler) (f : Int) (t : Nat) :
    (s.playAtFrame f t).1.waveformWidth = s.waveformWidth ∧
    (s.playAtFrame f t).1.waveformDataL = s.waveformDataL ∧
    (s.playAtFrame f t).1.waveformDataR = s.waveformDataR := by
  rcases playAtFrame_state s f t with e | ⟨_, _, _, e⟩ <;> rw [e] <;> exact ⟨rfl, rfl, rfl⟩

/-- In every reachable state the waveform cache is empty or filled. -/
theorem reachable_cache (s : AudioHandler) (h : Reachable s) :
    s.waveformEmpty ∨ s.waveformFilled := by
  induction h with
  | new => left; exact ⟨rfl, rfl, rfl⟩
  | newEager B =>
    left
    unfold AudioHandler.newEager AudioHandler.initEngine AudioHandler.waveformEmpty
    cases hB : B.engineInit <;> simp [AudioHandler.new]
  | @loadFile s B fileName fps _ ih =>
    obtain ⟨k1, k2, k3⟩ := loadFile_keeps_waveform s B fileName fps
    unfold AudioHandler.waveformEmpty AudioHandler.waveformFilled at ih ⊢
    rw [k1, k2, k3]; exact ih
  | @releaseFile s _ ih => exact ih
  | @playAtFrame s frame engineTime _ ih =>
    obtain ⟨k1, k2, k3⟩ := playAtFrame_keeps_waveform s frame engineTime
    unfold AudioHandler.waveformEmpty AudioHandler.waveformFilled at ih ⊢
    rw [k1, k2, k3]; exact ih
  | @stop s _ ih => exact ih
  | @setFps s fps _ ih => exact ih
  | @generateWaveform s s' w _ hg _ => exact generateWaveform_cache s s' w hg

theorem loadedSmall_fields :
    loadedSmall.fileLoaded = true ∧ loadedSmall.channels = 2 ∧
    loadedSmall.audioData = fillPayload 8 smallClip.pcm := by
  simp [loadedSmall, AudioHandler.loadFile, AudioHandler.initEngine, AudioHandler.new,
    Backend.smallAndBig, smallClip]

/-- C13 (as stated, refuted): after `loadFile(small.wav); generateWaveform(100)`
the cache holds 100 entries per channel, and it still does (width 100, both
sequences present) in the reachable state after `releaseFile()`, where no asset
is loaded, and in the reachable state after `loadFile(big.wav)`, where the
loaded asset has 30,000,000 PCM frames. -/
theorem waveform_survives_release_and_reload :
    ∃ s1, loadedSmall.generateWaveform 100 = some s1 ∧
      (Reachable s1.releaseFile.1 ∧ s1.releaseFile.1.fileLoaded = false ∧
        s1.releaseFile.1.getWaveformWidth = 100 ∧
        s1.releaseFile.1.waveformDataL ≠ none ∧ s1.releaseFile.1.waveformDataR ≠ none) ∧
      (Reachable (s1.loadFile Backend.smallAndBig "big.wav" 25).2.1 ∧
        (s1.loadFile Backend.smallAndBig "big.wav" 25).2.1.fileLoaded = true ∧
        (s1.loadFile Backend.smallAndBig "big.wav" 25).2.1.totalPcmFrames = 30000000 ∧
        (s1.loadFile Backend.smallAndBig "big.wav" 25).2.1.getWaveformWidth = 100 ∧
        (s1.loadFile Backend.smallAndBig "big.wav" 25).2.1.waveformDataL ≠ none ∧
        (s1.loadFile Backend.smallAndBig "big.wav" 25).2.1.waveformDataR ≠ none) := by
  obtain ⟨hl, hc, ha⟩ := loadedSmall_fields
  have hne : loadedSmall.audioData ≠ [] := by
    intro h
    have hlen := fillPayload_length 8 smallClip.pcm
    rw [← ha, h] at hlen
    simp at hlen
  obtain ⟨l, r, hg, _, _, _, _⟩ :=
    generateWaveform_loaded loadedSmall 100 hl hne (by rw [hc]; decide) (by decide)
  have hr0 : Reachable loadedSmall := Reachable.loadFile _ _ _ Reachable.new
  have hr1 := Reachable.generateWaveform 100 hr0 hg
  refine ⟨_, hg, ⟨Reachable.releaseFile hr1, rfl, rfl, by simp [AudioHandler.releaseFile],
    by simp [AudioHandler.releaseFile]⟩, Reachable.loadFile _ _ _ hr1, ?_⟩
  obtain ⟨k1, k2, k3⟩ := loadFile_keeps_waveform
    ({ loadedSmall with waveformDataL := some l, waveformDataR := some r,
                        waveformWidth := 100 } : AudioHandler)
    Backend.smallAndBig "big.wav" 25
  refine ⟨?_, ?_, k1, by rw [k2]; simp, by rw [k3]; simp⟩
  · simp [loadedSmall, AudioHandler.loadFile, AudioHandler.initEngine, AudioHandler.new,
      Backend.smallAndBig]
  · simp [loadedSmall, AudioHandler.loadFile, AudioHandler.initEngine, AudioHandler.new,
      Backend.smallAndBig]

/-- C13 (amended): in every reachable state the waveform cache is either empty
(width 0, both sequences absent) or holds `getWaveformWidth() > 0` entries per
channel; it is written by `generateWaveform` only (`loadFile`, `releaseFile`,
`playAtFrame`, `stop` and `setFps` leave it as it was); and a `generateWaveform`
call made while no asset is loaded, or while the loaded asset's PCM frame count
is at or above 30,000,000, leaves it empty. -/
theorem waveform_cache (s : AudioHandler) (hr : Reachable s) :
    (s.waveformEmpty ∨ s.waveformFilled) ∧
    (s.fileLoaded = false ∨ 30000000 ≤ s.totalPcmFrames →
      ∀ w s', s.generateWaveform w = some s' → s'.waveformEmpty) ∧
    (∀ w, ∃ s', s.generateWaveform w = some s') ∧
    (∀ (B : Backend) (fileName : String) (fps : ℚ),
      (s.loadFile B fileName fps).2.1.waveformWidth = s.waveformWidth ∧
      (s.loadFile B fileName fps).2.1.waveformDataL = s.waveformDataL ∧
      (s.loadFile B fileName fps).2.1.waveformDataR = s.waveformDataR) ∧
    (s.releaseFile.1.waveformWidth = s.waveformWidth ∧
      s.releaseFile.1.waveformDataL = s.waveformDataL ∧
      s.releaseFile.1.waveformDataR = s.waveformDataR) ∧
    (∀ (f : Int) (t : Nat),
      (s.playAtFrame f t).1.waveformWidth = s.waveformWidth ∧
      (s.playAtFrame f t).1.waveformDataL = s.waveformDataL ∧
      (s.playAtFrame f t).1.waveformDataR = s.waveformDataR) ∧
    (s.stop.1.waveformWidth = s.waveformWidth ∧
      s.stop.1.waveformDataL = s.waveformDataL ∧
      s.stop.1.waveformDataR = s.waveformDataR) ∧
    (∀ g : ℚ, (s.setFps g).waveformWidth = s.waveformWidth ∧
      (s.setFps g).waveformDataL = s.waveformDataL ∧
      (s.setFps g).waveformDataR = s.waveformDataR) := by
  refine ⟨reachable_cache s hr, ?_, ?_, loadFile_keeps_waveform s, ⟨rfl, rfl, rfl⟩,
    playAtFrame_keeps_waveform s, ⟨rfl, rfl, rfl⟩, fun _ => ⟨rfl, rfl, rfl⟩⟩
  · intro h w s' hg
    have c : s.fileLoaded = false ∨ s.audioData = [] ∨ w ≤ 0 := by
      rcases h with h | h
      · exact Or.inl h
      · rcases reachable_payload_bound s hr with e | ⟨_, e⟩
        · exact Or.inr (Or.inl e)
        · omega
    rw [generateWaveform_early s w c] at hg
    rw [← Option.some.inj hg]
    exact ⟨rfl, rfl, rfl⟩
  · intro w
    by_cases c : s.fileLoaded = false ∨ s.audioData = [] ∨ w ≤ 0
    · exact ⟨_, generateWaveform_early s w c⟩
    · simp only [not_or, Bool.not_eq_false, not_le] at c
      obtain ⟨hl, hne, hw⟩ := c
      have hch : s.channels ≠ 0 := by
        intro h0
        rcases (reachable_invariant s hr).2.2.2.2.2.2 with e | e
        · exact hne e
        · rw [h0, Nat.mul_zero] at e
          exact hne (List.length_eq_zero.mp e)
      obtain ⟨l, r, hg, _⟩ := generateWaveform_loaded s w hl hne hch (by omega)
      exact ⟨_, hg⟩

/-- Witness for C13 (amended): on the freshly constructed controller
`generateWaveform(100)` returns with an empty cache. -/
theorem waveform_cache_witness :
    ∃ s', AudioHandler.new.generateWaveform 100 = some s' ∧ s'.waveformEmpty := by
  have h := waveform_cache AudioHandler.new Reachable.new
  obtain ⟨s', hs'⟩ := h.2.2.1 100
  exact ⟨s', hs', h.2.1 (Or.inl rfl) 100 s' hs'⟩

/-! ## The plugin's guard -/

/-- Below the file length in frames, the exact PCM offset is below the end. -/
theorem offset_lt_total (s : AudioHandler) (f : Int) (hl : s.fileLoaded = true)
    (hrate : 0 < s.sampleRate) (hfps : 0 < s.fps) (hlen : f < s.getFileLengthInFrames) :
    (f : ℚ) / s.fps * (s.sampleRate : ℚ) < (s.totalPcmFrames : ℚ) := by
  have hR : (0 : ℚ) < (s.sampleRate : ℚ) := by exact_mod_cast hrate
  have hnn : (0 : ℚ) ≤ (s.totalPcmFrames : ℚ) / (s.sampleRate : ℚ) * s.fps := by positivity
  have hL : s.getFileLengthInFrames
      = ⌊(s.totalPcmFrames : ℚ) / (s.sampleRate : ℚ) * s.fps⌋ := by
    unfold AudioHandler.getFileLengthInFrames
    simp only [hl, Nat.ne_of_gt hrate, not_le.mpr hfps, or_self, Bool.true_eq_false, if_false]
    exact truncate_of_nonneg hnn
  rw [hL] at hlen
  have h1 : f + 1 ≤ ⌊(s.totalPcmFrames : ℚ) / (s.sampleRate : ℚ) * s.fps⌋ := hlen
  have h2 : ((f + 1 : Int) : ℚ) ≤ (s.totalPcmFrames : ℚ) / (s.sampleRate : ℚ) * s.fps :=
    Int.le_floor.mp h1
  push_cast at h2
  have h3 : ((f : ℚ) + 1) * (s.sampleRate : ℚ) ≤ (s.totalPcmFrames : ℚ) * s.fps := by
    have := mul_le_mul_of_nonneg_right h2 hR.le
    have e : (s.totalPcmFrames : ℚ) / (s.sampleRate : ℚ) * s.fps * (s.sampleRate : ℚ)
        = (s.totalPcmFrames : ℚ) * s.fps := by
      field_simp
    rw [e] at this
    exact this
  have h4 : (f : ℚ) * (s.sampleRate : ℚ) < (s.totalPcmFrames : ℚ) * s.fps := by nlinarith
  have e : (f : ℚ) / s.fps * (s.sampleRate : ℚ) = (f : ℚ) * (s.sampleRate : ℚ) / s.fps := by
    field_simp
  rw [e, div_lt_iff₀ hfps]
  exact h4

theorem afterFrame5_fields :
    afterFrame5.fileLoaded = true ∧ afterFrame5.sound = true ∧ afterFrame5.engine = true ∧
    afterFrame5.sampleRate = 48000 ∧ afterFrame5.totalPcmFrames = 480000 ∧
    afterFrame5.fps = 25 ∧ afterFrame5.lastPlayedFrame = 5 := by
  obtain ⟨hl, hs, he, hr, ht, hf, _⟩ := loadedTenSeconds_fields
  exact ⟨hl, hs, he, hr, ht, hf, rfl⟩

theorem afterFrame5_length : afterFrame5.getFileLengthInFrames = 250 := by
  obtain ⟨hl, _, _, hr, ht, hf, _⟩ := afterFrame5_fields
  unfold AudioHandler.getFileLengthInFrames
  rw [hl, ht, hr, hf]
  norm_num [truncate]

/-- C15 (as stated, refuted): the plugin validates timeline frames 5, 300 and 5
with `clip.wav` (ten seconds, 48 kHz, 25 fps, offset 0, input width 0 so that
no waveform is generated). The third call passes
the guard `0 <= 5 < 250` and calls `playAtFrame(5)` in a loaded state with
`totalPcmFrames > 0`, `sampleRate > 0`, `fps >= 1`; the offset is in bounds, yet
the call issues no backend command: frame 5 is still `lastPlayedFrame`. -/
theorem guarded_call_can_be_deduplicated :
    (∃ c, scrubPlayer.validate AudioHandler.new (Backend.always tenSeconds) 5 0 0
        = some ({ scrubPlayer with lastFrame := 5 }, afterFrame5, c)) ∧
    ({ scrubPlayer with lastFrame := 5 } : AudioPlayer).validate afterFrame5
        (Backend.always tenSeconds) 300 0 0
      = some ({ scrubPlayer with lastFrame := 300 }, afterFrame5, []) ∧
    (afterFrame5.fileLoaded = true ∧ 0 < afterFrame5.totalPcmFrames ∧
      0 < afterFrame5.sampleRate ∧ 1 ≤ afterFrame5.fps ∧
      (0 : Int) ≤ 5 ∧ (5 : Int) < afterFrame5.getFileLengthInFrames) ∧
    afterFrame5.pcmStart 5 < afterFrame5.totalPcmFrames ∧
    ({ scrubPlayer with lastFrame := 300 } : AudioPlayer).validate afterFrame5
        (Backend.always tenSeconds) 5 0 0
      = some ({ scrubPlayer with lastFrame := 5 }, (afterFrame5.playAtFrame 5 0).1,
          (afterFrame5.playAtFrame 5 0).2) ∧
    afterFrame5.playAtFrame 5 0 = (afterFrame5, []) := by
  obtain ⟨hl, hs, he, hr, ht, hf, hlast⟩ := afterFrame5_fields
  obtain ⟨gl, gs, ge, gr, gt, gf, glast⟩ := loadedTenSeconds_fields
  have hlen := afterFrame5_length
  have glen : loadedTenSeconds.getFileLengthInFrames = 250 := by
    unfold AudioHandler.getFileLengthInFrames
    rw [gl, gt, gr, gf]
    norm_num [truncate]
  have hp : afterFrame5.pcmStart 5 = 9600 := by
    have h := pcmStart_eq_floor afterFrame5 5 (by rw [hr, hf]; norm_num)
      (by rw [hr, hf]; norm_num)
    rw [hr, hf] at h
    have e : ⌊((5 : Int) : ℚ) / 25 * ((48000 : Nat) : ℚ)⌋ = 9600 := by norm_num
    rw [e] at h
    exact_mod_cast h
  have gp : loadedTenSeconds.pcmStart 5 = 9600 := hp
  have hdedup : afterFrame5.playAtFrame 5 0 = (afterFrame5, []) := by
    unfold AudioHandler.playAtFrame
    simp [hl, hs, he, hlast]
  have hplay : loadedTenSeconds.playAtFrame 5 0
      = (afterFrame5, (loadedTenSeconds.playAtFrame 5 0).2) := by
    rcases playAtFrame_state loadedTenSeconds 5 0 with e | ⟨_, _, _, e⟩
    · exfalso
      have h2 : (loadedTenSeconds.playAtFrame 5 0).1.lastPlayedFrame = 5 := by
        unfold AudioHandler.playAtFrame
        simp [gl, gs, ge, glast, gp, gt]
      rw [e, glast] at h2
      exact absurd h2 (by decide)
    · exact Prod.ext e rfl
  have hload : scrubPlayer.loadIfNeeded AudioHandler.new (Backend.always tenSeconds) 0
      = some (loadedTenSeconds,
          (AudioHandler.new.loadFile (Backend.always tenSeconds) "clip.wav" 25).2.2) := by
    have hok : (AudioHandler.new.loadFile (Backend.always tenSeconds) "clip.wav" 25).1 = true := by
      simp [AudioHandler.loadFile, AudioHandler.initEngine, AudioHandler.new, Backend.always]
    have hnew : AudioHandler.new.fileLoaded = false := rfl
    have hknob : scrubPlayer.fileKnob = "clip.wav" := rfl
    have hpf : scrubPlayer.fps = 25 := rfl
    unfold AudioPlayer.loadIfNeeded
    simp only [hnew, hknob, hpf, hok]
    simp
    rfl
  refine ⟨⟨(AudioHandler.new.loadFile (Backend.always tenSeconds) "clip.wav" 25).2.2
      ++ (loadedTenSeconds.playAtFrame 5 0).2, ?_⟩, ?_, ⟨hl, by rw [ht]; decide, by rw [hr]; decide, by rw [hf]; norm_num,
    by decide, by rw [hlen]; decide⟩, by rw [hp, ht]; decide, ?_, hdedup⟩
  · unfold AudioPlayer.validate
    have hen : scrubPlayer.enabled = true := rfl
    simp only [hen, hload, Bool.true_eq_false, if_false]
    unfold AudioPlayer.playIfChanged
    have hlf : scrubPlayer.lastFrame = -9999 := rfl
    have hoff : scrubPlayer.offset = 0 := rfl
    simp only [gl, hlf, hoff, glen]
    rw [hplay]
    simp
    exact ⟨hen, congrArg Prod.fst hplay⟩
  · unfold AudioPlayer.validate AudioPlayer.loadIfNeeded AudioPlayer.playIfChanged
    simp [hl, hlen, scrubPlayer, AudioPlayer.new]
  · unfold AudioPlayer.validate AudioPlayer.loadIfNeeded AudioPlayer.playIfChanged
    simp [hl, hlen, scrubPlayer, AudioPlayer.new]

/-- C15 (amended): in a loaded state with a playable handle, `totalPcmFrames`
within `ma_uint64` (it is positive as soon as the guard below holds),
`sampleRate > 0` and `fps >= 1`, for every frame `f` with
`0 <= f < getFileLengthInFrames()` the exact offset `f / fps * sampleRate` and
the truncated `pcmStart` are strictly below `totalPcmFrames`; so the
out-of-bounds branch of `playAtFrame` is not taken: the call seeks to
`pcmStart` and starts playback when `f` differs from `lastPlayedFrame`, and is
a no-op when `f` is `lastPlayedFrame`. -/
theorem guarded_frame_in_bounds (s : AudioHandler) (f : Int) (t : Nat)
    (hl : s.fileLoaded = true) (hs : s.sound = true) (he : s.engine = true)
    (htot64 : s.totalPcmFrames < 2 ^ 64)
    (hrate : 0 < s.sampleRate) (hfps : 1 ≤ s.fps)
    (h0 : 0 ≤ f) (hlen : f < s.getFileLengthInFrames) :
    (f : ℚ) / s.fps * (s.sampleRate : ℚ) < (s.totalPcmFrames : ℚ) ∧
    s.pcmStart f < s.totalPcmFrames ∧
    (f ≠ s.lastPlayedFrame →
      s.playAtFrame f t
        = ({ s with lastPlayedFrame := f },
            [Cmd.ma_sound_stop,
             Cmd.ma_sound_set_stop_time_in_pcm_frames (2 ^ 64 - 1),
             Cmd.ma_sound_seek_to_pcm_frame (s.pcmStart f),
             Cmd.ma_engine_get_time_in_pcm_frames,
             Cmd.ma_sound_set_stop_time_in_pcm_frames
               ((t + s.samplesPerVideoFrame) % 2 ^ 64),
             Cmd.ma_sound_start])) ∧
    (f = s.lastPlayedFrame → s.playAtFrame f t = (s, [])) := by
  have hpos : (0 : ℚ) < s.fps := lt_of_lt_of_le one_pos hfps
  have hlt := offset_lt_total s f hl hrate hpos hlen
  have hf0 : (0 : ℚ) ≤ (f : ℚ) := by exact_mod_cast h0
  have hnn : (0 : ℚ) ≤ (f : ℚ) / s.fps * (s.sampleRate : ℚ) := by positivity
  have h64 : (f : ℚ) / s.fps * (s.sampleRate : ℚ) < 2 ^ 64 := by
    have : (s.totalPcmFrames : ℚ) < 2 ^ 64 := by exact_mod_cast htot64
    exact lt_trans hlt this
  have hp := pcmStart_eq_floor s f hnn h64
  have hpl : (s.pcmStart f : Int) < (s.totalPcmFrames : Int) := by
    rw [hp]
    exact Int.floor_lt.mpr (by exact_mod_cast hlt)
  have hpl' : s.pcmStart f < s.totalPcmFrames := by exact_mod_cast hpl
  refine ⟨hlt, hpl', fun hne => ?_, fun heq => ?_⟩
  · have c4 : ¬ (0 < s.totalPcmFrames ∧ s.totalPcmFrames ≤ s.pcmStart f) := by
      rintro ⟨_, h2⟩
      omega
    unfold AudioHandler.playAtFrame
    simp [hl, hs, he, hne, c4]
  · unfold AudioHandler.playAtFrame
    simp [hl, hs, he, heq]

/-- Witness for C15 (amended): the ten-second asset at 25 fps and frame 0. -/
theorem guarded_frame_in_bounds_witness :
    loadedTenSeconds.pcmStart 0 < loadedTenSeconds.totalPcmFrames ∧
    Cmd.ma_sound_start ∈ (loadedTenSeconds.playAtFrame 0 0).2 := by
  obtain ⟨hl, hs, he, hr, ht, hf, hlast⟩ := loadedTenSeconds_fields
  have hlen : (0 : Int) < loadedTenSeconds.getFileLengthInFrames := by
    unfold AudioHandler.getFileLengthInFrames
    rw [hl, ht, hr, hf]
    norm_num [truncate]
  have h := guarded_frame_in_bounds loadedTenSeconds 0 0 hl hs he
    (by rw [ht]; decide) (by rw [hr]; decide) (by rw [hf]; norm_num) (le_refl _) hlen
  refine ⟨h.2.1, ?_⟩
  rw [h.2.2.1 (by rw [hlast]; decide)]
  simp
